import Mathlib

/-!
# MicroShift bootstrap: certificates, key pairs and kubeconfigs

A shallow embedding of `pkg/cmd/init.go` (`initAll`, `initCerts`,
`initKubeconfig`) and of the role validation of `pkg/config/config.go`
(`StringInList`, `ReadAndValidate` and the three readers it calls).

The helpers of `pkg/util` and the library calls (`net.ParseCIDR`,
`ctrl.ServiceIPRange`, `filepath.Join`) are not part of these sources.  The
embedding takes them as fields of an environment record, and every call is
appended, together with the error it returned, to a log carried in the state;
the statements about a run are statements about that log.

Some of the library calls are also given a concrete form: `filepath.Join`, after
the documented rules of the Go library, for the statement about file paths;
`ctrl.ServiceIPRange`, after section 4.2 of the specification and the vendored
function, for the statement about the derived address; and the decoding of a
`roles` list by `yaml.Unmarshal`, for the statement about role validation.
-/

namespace Microshift

/-! ## Configuration (`pkg/config/config.go`) -/

/-- The `ClusterConfig` struct. -/
structure ClusterConfig where
  URL : String
  ClusterCIDR : String
  ServiceCIDR : String
  ServiceNodePortRange : String
  DNS : String
  Domain : String
  MTU : String
  deriving DecidableEq, Repr

/-- The `DebugConfig` struct. -/
structure DebugConfig where
  Pprof : Bool
  deriving DecidableEq, Repr

/-- A `[]string` as `Roles` can hold one: either the first `len` elements of the array
behind the package variable `validRoles`, which has room for two, or a slice with an array
of its own. -/
inductive RolesSlice where
  | shared (len : Nat)
  | own (elems : List String)
  deriving DecidableEq, Repr

/-- The `MicroshiftConfig` struct (the empty `ControlPlane` and `Node` members carry no data). -/
structure MicroshiftConfig where
  ConfigFile : String
  DataDir : String
  AuditLogDir : String
  LogVLevel : Int
  Roles : RolesSlice
  NodeName : String
  NodeIP : String
  Cluster : ClusterConfig
  Manifests : List String
  Debug : DebugConfig
  deriving DecidableEq, Repr

/-! ## External calls made by the bootstrap -/

/-- One call made by `initCerts` or `initKubeconfig`, with the arguments the source passes. -/
inductive Call (Net : Type) where
  /-- The call `net.ParseCIDR(cidr)`. -/
  | parseCIDR (cidr : String)
  /-- The call `ctrl.ServiceIPRange(svcNet)`. -/
  | serviceIPRange (svcNet : Net)
  /-- The call `util.StoreRootCA(common, dir, certFilename, keyFilename, svcName)`. -/
  | storeRootCA (common dir certFilename keyFilename : String) (svcName : List String)
  /-- The call `util.GenCerts(common, dir, certFilename, keyFilename, svcName)`. -/
  | genCerts (common dir certFilename keyFilename : String) (svcName : List String)
  /-- The call `util.GenKeys(dir, pubFilename, keyFilename)`. -/
  | genKeys (dir pubFilename keyFilename : String)
  /-- The call `util.Kubeconfig(path, common, svcName, clusterURL)`. -/
  | kubeconfig (path common : String) (svcName : List String) (clusterURL : String)
  deriving DecidableEq, Repr

/-- What the bootstrap code calls but does not define: the two network helpers, the
rendering of an IP address, `filepath.Join` on two elements, and the `pkg/util` helpers,
each of which acts on the world `W` and returns a Go `error` (`none` is `nil`). -/
structure Ext (W Net IP Err : Type) where
  parseCIDR : String → Except Err Net
  serviceIPRange : Net → Except Err IP
  ipString : IP → String
  join : String → String → String
  exec : Call Net → W → Option Err × W

/-- The state threaded through the bootstrap: the outside world and the log of the calls
made so far, each with the error it returned. -/
structure St (W Net Err : Type) where
  world : W
  log : List (Call Net × Option Err)

variable {W Net IP Err : Type}

/-- Append one call and its outcome to the log. -/
def St.record (s : St W Net Err) (c : Call Net) (r : Option Err) : St W Net Err :=
  { s with log := s.log ++ [(c, r)] }

/-- The statement `if err := f(...); err != nil { return err }` followed by the rest `k` of the
function body: run the call, log it, return its error or go on. -/
def callStep (x : Ext W Net IP Err) (c : Call Net)
    (k : St W Net Err → Option Err × St W Net Err) (s : St W Net Err) :
    Option Err × St W Net Err :=
  match x.exec c s.world with
  | (some err, w) => (some err, St.record { s with world := w } c (some err))
  | (none, w) => k (St.record { s with world := w } c none)

/-- The final `return nil` of a function body. -/
def returnNil (s : St W Net Err) : Option Err × St W Net Err := (none, s)

/-- The function `initCerts` of `pkg/cmd/init.go`. -/
def initCerts (x : Ext W Net IP Err) (cfg : MicroshiftConfig) (s : St W Net Err) :
    Option Err × St W Net Err :=
  match x.parseCIDR cfg.Cluster.ServiceCIDR with
  | .error err => (some err, s.record (.parseCIDR cfg.Cluster.ServiceCIDR) (some err))
  | .ok svcNet =>
    let s := s.record (.parseCIDR cfg.Cluster.ServiceCIDR) none
    match x.serviceIPRange svcNet with
    | .error err => (some err, s.record (.serviceIPRange svcNet) (some err))
    | .ok apiServerServiceIP =>
      let s := s.record (.serviceIPRange svcNet) none
      (callStep x (.storeRootCA "https://kubernetes.svc" (x.join cfg.DataDir "/certs/ca-bundle")
          "ca-bundle.crt" "ca-bundle.key" ["https://kubernetes.svc"]) <|
       callStep x (.genCerts "etcd-server" (x.join cfg.DataDir "/certs/etcd")
          "etcd-serving.crt" "etcd-serving.key"
          ["localhost", cfg.NodeIP, "127.0.0.1", cfg.NodeName]) <|
       callStep x (.genCerts "etcd-peer" (x.join cfg.DataDir "/certs/etcd")
          "etcd-peer.crt" "etcd-peer.key"
          ["localhost", cfg.NodeIP, "127.0.0.1", cfg.NodeName]) <|
       callStep x (.genCerts "etcd-client"
          (x.join cfg.DataDir "/resources/kube-apiserver/secrets/etcd-client")
          "tls.crt" "tls.key"
          ["localhost", cfg.NodeIP, "127.0.0.1", cfg.NodeName]) <|
       callStep x (.genCerts "kube-apiserver"
          (x.join cfg.DataDir "/certs/kube-apiserver/secrets/service-network-serving-certkey")
          "tls.crt" "tls.key"
          ["kube-apiserver", cfg.NodeIP, cfg.NodeName, "127.0.0.1", "kubernetes.default.svc",
           "kubernetes.default", "kubernetes", "localhost",
           x.ipString apiServerServiceIP]) <|
       callStep x (.genKeys
          (x.join cfg.DataDir "/resources/kube-apiserver/secrets/service-account-key")
          "service-account.crt" "service-account.key") <|
       callStep x (.genCerts "system:masters"
          (x.join cfg.DataDir "/certs/kube-apiserver/secrets/aggregator-client")
          "tls.crt" "tls.key"
          ["system:admin", "system:masters"]) <|
       callStep x (.genCerts "system:masters"
          (x.join cfg.DataDir "/resources/kube-apiserver/secrets/kubelet-client")
          "tls.crt" "tls.key"
          ["kube-apiserver", "system:kube-apiserver", "system:masters"]) <|
       callStep x (.genKeys (x.join cfg.DataDir "/resources/kube-apiserver/sa-public-key")
          "serving-ca.pub" "serving-ca.key") <|
       callStep x (.genCerts "kubelet"
          (x.join cfg.DataDir "/resources/kubelet/secrets/kubelet-client")
          "tls.crt" "tls.key"
          ["localhost", cfg.NodeIP, "127.0.0.1", cfg.NodeName]) <|
       callStep x (.genCerts "openshift-controller-manager"
          (x.join cfg.DataDir "/resources/openshift-controller-manager/secrets")
          "tls.crt" "tls.key"
          ["openshift-controller-manager", cfg.NodeName, cfg.NodeIP, "127.0.0.1",
           "kubernetes.default.svc", "kubernetes.default", "kubernetes", "localhost"]) <|
       callStep x (.genCerts "service-ca"
          (x.join cfg.DataDir "/resources/service-ca/secrets/service-ca")
          "tls.crt" "tls.key"
          ["localhost", cfg.NodeIP, "127.0.0.1", cfg.NodeName,
           x.ipString apiServerServiceIP]) <|
       returnNil) s

/-- The function `initKubeconfig` of `pkg/cmd/init.go`. -/
def initKubeconfig (x : Ext W Net IP Err) (cfg : MicroshiftConfig) (s : St W Net Err) :
    Option Err × St W Net Err :=
  (callStep x (.kubeconfig (x.join cfg.DataDir "/resources/kubeadmin/kubeconfig")
      "system:admin" ["system:masters"] cfg.Cluster.URL) <|
   callStep x (.kubeconfig (x.join cfg.DataDir "/resources/kube-apiserver/kubeconfig")
      "kube-apiserver" ["kube-apiserver", "system:kube-apiserver", "system:masters"]
      cfg.Cluster.URL) <|
   callStep x (.kubeconfig (x.join cfg.DataDir "/resources/kube-controller-manager/kubeconfig")
      "system:kube-controller-manager" ["system:kube-controller-manager"] cfg.Cluster.URL) <|
   callStep x (.kubeconfig (x.join cfg.DataDir "/resources/kube-scheduler/kubeconfig")
      "system:kube-scheduler" ["system:kube-scheduler"] cfg.Cluster.URL) <|
   callStep x (.kubeconfig (x.join cfg.DataDir "/resources/kubelet/kubeconfig")
      ("system:node:" ++ cfg.NodeName) ["system:nodes"] cfg.Cluster.URL) <|
   returnNil) s

/-- The function `initAll` of `pkg/cmd/init.go`. -/
def initAll (x : Ext W Net IP Err) (cfg : MicroshiftConfig) (s : St W Net Err) :
    Option Err × St W Net Err :=
  match initCerts x cfg s with
  | (some err, s1) => (some err, s1)
  | (none, s1) =>
    match initKubeconfig x cfg s1 with
    | (some err, s2) => (some err, s2)
    | (none, s2) => (none, s2)

/-! ## Role validation (`pkg/config/config.go`)

`validRoles` is a package variable, a slice over an array of two strings, and
`defaultRoles = validRoles` is the same slice: `NewMicroshiftConfig` hands it to `Roles`, so
the `Roles` of a fresh configuration and `validRoles` share one backing array.  The model
keeps that array in the package state and tells a `Roles` that still shares it from one
with an array of its own. -/

/-- The package variables of `config.go` that can change: the contents of the array behind
`validRoles` and `defaultRoles`. -/
structure Package where
  validRoles : List String
  deriving DecidableEq, Repr

/-- The package state at program start, `validRoles = []string{"controlplane", "node"}`. -/
def initialPackage : Package := { validRoles := ["controlplane", "node"] }

/-- The package variable `defaultRoles`, set to `validRoles`: the slice over the first two
elements of the array of `validRoles`. -/
def defaultRoles : RolesSlice := .shared 2

/-- The elements of a `Roles` slice in the package state `p`. -/
def RolesSlice.elems (p : Package) : RolesSlice → List String
  | .shared len => p.validRoles.take len
  | .own elems => elems

/-- The constant `defaultManifestDirEtc`. -/
def defaultManifestDirEtc : String := "/etc/microshift/manifests"

/-- The constant `defaultManifestDirLib`. -/
def defaultManifestDirLib : String := "/usr/lib/microshift/manifests"

/-- The function `StringInList`: a linear scan that returns at the first equal element. -/
def StringInList (s : String) : List String → Bool
  | [] => false
  | x :: list => if x = s then true else StringInList s list

/-- The part of a `pflag.FlagSet` that `ReadFromCmdLine` looks at. -/
structure FlagSet where
  getString : String → Except String String
  getStringSlice : String → Except String (List String)
  getBool : String → Except String Bool
  /-- The result of `flags.Lookup(name)`, as the flag's `Value.String()` when it exists. -/
  lookup : String → Option String
  changed : String → Bool

/-- What the configuration readers call but do not define; errors are their messages.  The
two decoders write through the receiver, and so can reach the array of `validRoles` while
`Roles` shares it: they take and return the package state along with the receiver. -/
structure ConfigEnv where
  /-- The call `os.ReadFile`. -/
  readFile : String → Except String String
  /-- The call `yaml.Unmarshal(contents, c)`: its error, the receiver and the package state
  afterwards. -/
  yamlUnmarshal : String → MicroshiftConfig → Package →
    Option String × MicroshiftConfig × Package
  /-- The call `envconfig.Process("microshift", c)`: its error, the receiver and the package
  state afterwards. -/
  envconfigProcess : MicroshiftConfig → Package → Option String × MicroshiftConfig × Package
  /-- The value of `NewMicroshiftConfig()` on this host. -/
  defaultCfg : MicroshiftConfig
  /-- The function `filepath.Join` on two elements. -/
  join : String → String → String
  /-- The value `strconv.Atoi` returns, its error being dropped by the caller. -/
  atoi : String → Int

/-- The method `updateManifestList`. -/
def updateManifestList (env : ConfigEnv) (c : MicroshiftConfig) : MicroshiftConfig :=
  if c.DataDir ≠ env.defaultCfg.DataDir ∧ env.defaultCfg.Manifests = c.Manifests then
    { c with Manifests := [defaultManifestDirLib, defaultManifestDirEtc,
                           env.join c.DataDir "manifests"] }
  else c

/-- The method `ReadFromConfigFile`: the error returned, the receiver and the package state
afterwards.  The message of a decoding error names `c.ConfigFile` as it is after
`yaml.Unmarshal`. -/
def ReadFromConfigFile (env : ConfigEnv) (c : MicroshiftConfig) (p : Package) :
    Option String × MicroshiftConfig × Package :=
  if c.ConfigFile.length = 0 then (none, c, p)
  else
    match env.readFile c.ConfigFile with
    | .error err => (some ("reading config file " ++ c.ConfigFile ++ ": " ++ err), c, p)
    | .ok contents =>
      match env.yamlUnmarshal contents c p with
      | (some err, c1, p1) =>
        (some ("decoding config file " ++ c1.ConfigFile ++ ": " ++ err), c1, p1)
      | (none, c1, p1) => (none, updateManifestList env c1, p1)

/-- The method `ReadFromEnv`. -/
def ReadFromEnv (env : ConfigEnv) (c : MicroshiftConfig) (p : Package) :
    Option String × MicroshiftConfig × Package :=
  match env.envconfigProcess c p with
  | (some err, c1, p1) => (some err, c1, p1)
  | (none, c1, p1) => (none, updateManifestList env c1, p1)

/-- The method `ReadFromCmdLine`; it always returns `nil`, and it assigns to the fields of
the receiver only: `c.Roles = roles` makes `Roles` the slice the flag set returned. -/
def ReadFromCmdLine (env : ConfigEnv) (flags : FlagSet) (c : MicroshiftConfig) :
    Option String × MicroshiftConfig :=
  let c :=
    match flags.getString "data-dir", flags.changed "data-dir" with
    | .ok dataDir, true => updateManifestList env { c with DataDir := dataDir }
    | _, _ => c
  let c :=
    match flags.getString "audit-log-dir", flags.changed "audit-log-dir" with
    | .ok auditLogDir, true => { c with AuditLogDir := auditLogDir }
    | _, _ => c
  let c :=
    match flags.lookup "v", flags.changed "v" with
    | some v, true => { c with LogVLevel := env.atoi v }
    | _, _ => c
  let c :=
    match flags.getStringSlice "roles", flags.changed "roles" with
    | .ok roles, true => { c with Roles := .own roles }
    | _, _ => c
  let c :=
    match flags.getBool "debug.pprof", flags.changed "debug.pprof" with
    | .ok pprofFlag, true => { c with Debug := { c.Debug with Pprof := pprofFlag } }
    | _, _ => c
  (none, c)

/-- The text `fmt.Errorf` builds for a role that is not valid. -/
def roleError (role : String) : String :=
  "config error: '" ++ role ++ "' is not a valid role, must be in ['controlplane','node']"

/-- The loop `for _, role := range c.Roles` of `ReadAndValidate`, which returns at the first
role that `StringInList` does not find in `validRoles` as it stands. -/
def validateRoles (validRoles : List String) : List String → Option String
  | [] => none
  | role :: roles =>
    if !StringInList role validRoles then some (roleError role)
    else validateRoles validRoles roles

/-- The method `ReadAndValidate`: the error returned, the receiver and the package state
afterwards. -/
def ReadAndValidate (env : ConfigEnv) (flags : FlagSet) (c : MicroshiftConfig) (p : Package) :
    Option String × MicroshiftConfig × Package :=
  match ReadFromConfigFile env c p with
  | (some err, c1, p1) => (some err, c1, p1)
  | (none, c1, p1) =>
    match ReadFromEnv env c1 p1 with
    | (some err, c2, p2) => (some err, c2, p2)
    | (none, c2, p2) =>
      match ReadFromCmdLine env flags c2 with
      | (some err, c3) => (some err, c3, p2)
      | (none, c3) => (validateRoles p2.validRoles (c3.Roles.elems p2), c3, p2)

/-- The way `yaml.Unmarshal` (library code, not part of the sources), through
`encoding/json`, decodes the array `roles` found under the key `roles` into the existing
`Roles` slice: an empty array gives a new empty slice; the elements of a non-empty one are
written into the array the slice already has as long as its capacity lasts, which for a
`Roles` that shares the array of `validRoles` means into that array, and a larger array is
allocated only for what does not fit. -/
def decodeRoles (roles : List String) (c : MicroshiftConfig) (p : Package) :
    MicroshiftConfig × Package :=
  if roles = [] then ({ c with Roles := .own [] }, p)
  else
    match c.Roles with
    | .own _ => ({ c with Roles := .own roles }, p)
    | .shared _ =>
      let p1 : Package :=
        { validRoles := roles.take p.validRoles.length ++ p.validRoles.drop roles.length }
      if roles.length ≤ p.validRoles.length then ({ c with Roles := .shared roles.length }, p1)
      else ({ c with Roles := .own roles }, p1)

/-! ## Paths: `filepath.Join` and `filepath.Clean` of the Go library, on Unix

The library is not part of the sources; the definitions below follow its documented
rules on the elements of a path: runs of separators collapse, `.` elements vanish, a `..`
element removes the element before it, a `..` at the root vanishes, and the empty result
is `.`. -/

/-- The elements of a path between its `/` separators. -/
def splitSlash : List Char → List (List Char)
  | [] => [[]]
  | c :: cs =>
    if c = '/' then [] :: splitSlash cs
    else
      match splitSlash cs with
      | [] => [[c]]
      | h :: t => (c :: h) :: t

/-- One element read by `Clean`, given the elements kept so far. -/
def cleanStep (rooted : Bool) (kept : List (List Char)) (el : List Char) : List (List Char) :=
  if el = [] ∨ el = ['.'] then kept
  else if el = ['.', '.'] then
    match kept.getLast? with
    | some top => if top = ['.', '.'] then kept ++ [el] else kept.dropLast
    | none => if rooted then kept else kept ++ [el]
  else kept ++ [el]

/-- The elements written with a `/` before each one. -/
def slashed (els : List (List Char)) : List Char :=
  els.flatMap (fun el => '/' :: el)

/-- The function `filepath.Clean`. -/
def cleanChars (path : List Char) : List Char :=
  if path = [] then ['.']
  else
    let rooted := path.head? = some '/'
    let kept := (splitSlash path).foldl (cleanStep rooted) []
    if rooted then (if kept = [] then ['/'] else slashed kept)
    else (if kept = [] then ['.'] else (slashed kept).tail)

/-- The function `filepath.Join` on two elements: empty leading elements are dropped, the
rest is joined with `/` and cleaned. -/
def joinChars (a b : List Char) : List Char :=
  if a ≠ [] then cleanChars (a ++ '/' :: b)
  else if b ≠ [] then cleanChars b
  else []

/-- The function `filepath.Join` on two strings. -/
def filepathJoin (a b : String) : String := String.mk (joinChars a.data b.data)

/-- The files a call stores its material in: for the helpers that take a directory and two
file names, the directory joined with each name; for `util.Kubeconfig`, its path. -/
def Call.targets {Net : Type} : Call Net → List String
  | .parseCIDR _ => []
  | .serviceIPRange _ => []
  | .storeRootCA _ dir certFilename keyFilename _ =>
    [filepathJoin dir certFilename, filepathJoin dir keyFilename]
  | .genCerts _ dir certFilename keyFilename _ =>
    [filepathJoin dir certFilename, filepathJoin dir keyFilename]
  | .genKeys dir pubFilename keyFilename =>
    [filepathJoin dir pubFilename, filepathJoin dir keyFilename]
  | .kubeconfig path _ _ _ => [path]

/-! ## The service IP: `net.ParseCIDR` and `ctrl.ServiceIPRange`

Neither function is part of the sources.  `ctrl.ServiceIPRange` is modelled on networks of
both address families; `net.ParseCIDR` is a parameter of the statements about all service
CIDRs, and its IPv4 half is written out for the sample host. -/

/-- A network as `net.ParseCIDR` returns it: the network address as a number, the length
`ones` of the mask and the width `bits` of the address family (32 or 128). -/
structure IPNet where
  IP : Nat
  ones : Nat
  bits : Nat
  deriving DecidableEq, Repr

/-- The shape of every `*net.IPNet` that `net.ParseCIDR` returns: an IPv4 or IPv6 width, a
mask no longer than it, and an address of that width whose host bits are cleared. -/
def IPNet.IsNetwork (n : IPNet) : Prop :=
  (n.bits = 32 ∨ n.bits = 128) ∧ n.ones ≤ n.bits ∧ n.IP < 2 ^ n.bits ∧
    2 ^ (n.bits - n.ones) ∣ n.IP

instance (n : IPNet) : Decidable n.IsNetwork := by
  unfold IPNet.IsNetwork; infer_instance

/-- The method `(*net.IPNet).Contains`: an address of the network's width that agrees with
the network address under the mask. -/
def IPNet.Contains (n : IPNet) (ip : Nat) : Prop :=
  ip < 2 ^ n.bits ∧ ip / 2 ^ (n.bits - n.ones) = n.IP / 2 ^ (n.bits - n.ones)

instance (n : IPNet) (ip : Nat) : Decidable (n.Contains ip) := by
  unfold IPNet.Contains; infer_instance

/-- Modelled from the spec: `utilnet.RangeSize` belongs to the vendored package
`k8s.io/utils/net` and is not part of the sources, and the spec does not describe it; the
model follows the vendored function.  It counts no address at all when the mask leaves 31
or more host bits of an IPv4 range (127 or more of an IPv6 range), the largest `int64` for
an IPv6 range with 63 or more host bits, and two to the number of host bits otherwise. -/
def RangeSize (subnet : IPNet) : Nat :=
  if (subnet.bits = 32 ∧ 31 ≤ subnet.bits - subnet.ones) ∨
      (subnet.bits = 128 ∧ 127 ≤ subnet.bits - subnet.ones) then 0
  else if subnet.bits = 128 ∧ 63 ≤ subnet.bits - subnet.ones then 2 ^ 63 - 1
  else 2 ^ (subnet.bits - subnet.ones)

/-- Modelled from the spec: `utilnet.GetIndexedIP` belongs to the vendored package
`k8s.io/utils/net` and is not part of the sources; the model follows the vendored
function: the address `index` above the network address, and an error when the range does
not contain it. -/
def GetIndexedIP (subnet : IPNet) (index : Nat) : Except String Nat :=
  if subnet.Contains (subnet.IP + index) then .ok (subnet.IP + index)
  else .error "can't generate IP from subnet. subnet too small"

/-- Modelled from the spec: `ctrl.ServiceIPRange` belongs to the vendored package
`k8s.io/kubernetes/pkg/controlplane` and is not part of the sources.  Section 4.2 gives
what it returns, "the first usable host address after the network address"; the spec does
not say when it fails, and there the model follows the vendored function: it refuses a
range in which `RangeSize`, capped at 65536, counts fewer than 8 addresses, and returns the
address at index 1 of the range otherwise.  (The range it is handed by `initCerts` comes
from `net.ParseCIDR` and always has an address, so the default range it falls back on for
an empty one plays no part.) -/
def ServiceIPRange (svcNet : IPNet) : Except String Nat :=
  if min (RangeSize svcNet) (2 ^ 16) < 8 then
    .error "the service cluster IP range must be at least 8 IP addresses"
  else GetIndexedIP svcNet 1

/-- The deriver of section 4.2, `DeriveAPIServerServiceIP`: the two calls that open
`initCerts`, `net.ParseCIDR`, here the parameter `parseCIDR`, and then `ctrl.ServiceIPRange`
on the network it returns. -/
def DeriveAPIServerServiceIP (parseCIDR : String → Except String IPNet)
    (serviceCIDR : String) : Except String Nat :=
  match parseCIDR serviceCIDR with
  | .error err => .error err
  | .ok svcNet => ServiceIPRange svcNet

/-- The value of a decimal digit. -/
def digitVal (c : Char) : Option Nat :=
  if '0' ≤ c ∧ c ≤ '9' then some (c.toNat - '0'.toNat) else none

/-- Read a run of decimal digits, most significant first, onto `acc`. -/
def parseDecAux : Nat → List Char → Option Nat
  | acc, [] => some acc
  | acc, c :: cs =>
    match digitVal c with
    | none => none
    | some d => parseDecAux (acc * 10 + d) cs

/-- A decimal number: a non-empty string of digits. -/
def parseDec (cs : List Char) : Option Nat :=
  if cs = [] then none else parseDecAux 0 cs

/-- The fields of a string between occurrences of `sep`. -/
def splitChar (sep : Char) : List Char → List (List Char)
  | [] => [[]]
  | c :: cs =>
    if c = sep then [] :: splitChar sep cs
    else
      match splitChar sep cs with
      | [] => [[c]]
      | h :: t => (c :: h) :: t

/-- A decimal number no larger than `bound`, or nothing. -/
def parseBounded (bound : Nat) (cs : List Char) : Option Nat :=
  match parseDec cs with
  | some n => if n ≤ bound then some n else none
  | none => none

/-- One field of a dotted-quad address: a decimal number up to 255, written without a
leading zero unless it is the single digit `0`. -/
def parseOctet (cs : List Char) : Option Nat :=
  if 1 < cs.length ∧ cs.head? = some '0' then none else parseBounded 255 cs

/-- A dotted-quad IPv4 address as a 32-bit number. -/
def parseIPv4 (cs : List Char) : Option Nat :=
  match (splitChar '.' cs).map parseOctet with
  | [some a, some b, some c, some d] => some (a * 2 ^ 24 + b * 2 ^ 16 + c * 2 ^ 8 + d)
  | _ => none

/-- The address with its host bits cleared, for a mask of `ones` bits out of 32. -/
def networkAddress (addr ones : Nat) : Nat :=
  addr - addr % 2 ^ (32 - ones)

/-- Modelled from the spec: `net.ParseCIDR` belongs to the Go library and is not part of the
sources.  This is its IPv4 half only, for the sample host: it reads `a.b.c.d/n` with `n` at
most 32 and returns the network of that address, and fails with `InvalidCIDRError`, the
error of section 4.2, on any other text.  An IPv6 CIDR, which `net.ParseCIDR` accepts, is
outside it; statements about every service CIDR take the parser as a parameter instead. -/
def ParseCIDRv4 (s : String) : Except String IPNet :=
  match splitChar '/' s.data with
  | [addr, len] =>
    match parseIPv4 addr, parseBounded 32 len with
    | some a, some n => .ok { IP := networkAddress a n, ones := n, bits := 32 }
    | _, _ => .error "InvalidCIDRError"
  | _ => .error "InvalidCIDRError"

/-- The dotted-quad form of an IPv4 address, as `net.IP.String` prints it. -/
def ipString (ip : Nat) : String :=
  toString (ip / 2 ^ 24 % 256) ++ "." ++ toString (ip / 2 ^ 16 % 256) ++ "." ++
    toString (ip / 2 ^ 8 % 256) ++ "." ++ toString (ip % 256)

/-! ## Vocabulary for the statements -/

/-- The calls made by one run of `initAll` from state `s`, each with the error it returned. -/
def callsMade (x : Ext W Net IP Err) (cfg : MicroshiftConfig) (s : St W Net Err) :
    List (Call Net × Option Err) :=
  (initAll x cfg s).2.log.drop s.log.length

/-- The calls made by one run of `initCerts` from state `s`. -/
def certCallsMade (x : Ext W Net IP Err) (cfg : MicroshiftConfig) (s : St W Net Err) :
    List (Call Net × Option Err) :=
  (initCerts x cfg s).2.log.drop s.log.length

/-- The calls made by one run of `initKubeconfig` from state `s`. -/
def kubeconfigCallsMade (x : Ext W Net IP Err) (cfg : MicroshiftConfig) (s : St W Net Err) :
    List (Call Net × Option Err) :=
  (initKubeconfig x cfg s).2.log.drop s.log.length

/-- Run a list of calls in order, stopping at the first error. -/
def runCalls (x : Ext W Net IP Err) :
    List (Call Net) → St W Net Err → Option Err × St W Net Err
  | [] => returnNil
  | c :: cs => callStep x c (runCalls x cs)

/-- The twelve `pkg/util` calls of `initCerts`, in source order, for the service IP `ip`. -/
def certCalls (x : Ext W Net IP Err) (cfg : MicroshiftConfig) (ip : IP) : List (Call Net) :=
  [.storeRootCA "https://kubernetes.svc" (x.join cfg.DataDir "/certs/ca-bundle")
      "ca-bundle.crt" "ca-bundle.key" ["https://kubernetes.svc"],
   .genCerts "etcd-server" (x.join cfg.DataDir "/certs/etcd")
      "etcd-serving.crt" "etcd-serving.key"
      ["localhost", cfg.NodeIP, "127.0.0.1", cfg.NodeName],
   .genCerts "etcd-peer" (x.join cfg.DataDir "/certs/etcd")
      "etcd-peer.crt" "etcd-peer.key"
      ["localhost", cfg.NodeIP, "127.0.0.1", cfg.NodeName],
   .genCerts "etcd-client" (x.join cfg.DataDir "/resources/kube-apiserver/secrets/etcd-client")
      "tls.crt" "tls.key"
      ["localhost", cfg.NodeIP, "127.0.0.1", cfg.NodeName],
   .genCerts "kube-apiserver"
      (x.join cfg.DataDir "/certs/kube-apiserver/secrets/service-network-serving-certkey")
      "tls.crt" "tls.key"
      ["kube-apiserver", cfg.NodeIP, cfg.NodeName, "127.0.0.1", "kubernetes.default.svc",
       "kubernetes.default", "kubernetes", "localhost", x.ipString ip],
   .genKeys (x.join cfg.DataDir "/resources/kube-apiserver/secrets/service-account-key")
      "service-account.crt" "service-account.key",
   .genCerts "system:masters"
      (x.join cfg.DataDir "/certs/kube-apiserver/secrets/aggregator-client")
      "tls.crt" "tls.key" ["system:admin", "system:masters"],
   .genCerts "system:masters"
      (x.join cfg.DataDir "/resources/kube-apiserver/secrets/kubelet-client")
      "tls.crt" "tls.key" ["kube-apiserver", "system:kube-apiserver", "system:masters"],
   .genKeys (x.join cfg.DataDir "/resources/kube-apiserver/sa-public-key")
      "serving-ca.pub" "serving-ca.key",
   .genCerts "kubelet" (x.join cfg.DataDir "/resources/kubelet/secrets/kubelet-client")
      "tls.crt" "tls.key"
      ["localhost", cfg.NodeIP, "127.0.0.1", cfg.NodeName],
   .genCerts "openshift-controller-manager"
      (x.join cfg.DataDir "/resources/openshift-controller-manager/secrets")
      "tls.crt" "tls.key"
      ["openshift-controller-manager", cfg.NodeName, cfg.NodeIP, "127.0.0.1",
       "kubernetes.default.svc", "kubernetes.default", "kubernetes", "localhost"],
   .genCerts "service-ca" (x.join cfg.DataDir "/resources/service-ca/secrets/service-ca")
      "tls.crt" "tls.key"
      ["localhost", cfg.NodeIP, "127.0.0.1", cfg.NodeName, x.ipString ip]]

/-- The five `util.Kubeconfig` calls of `initKubeconfig`, in source order. -/
def kubeconfigCalls (x : Ext W Net IP Err) (cfg : MicroshiftConfig) : List (Call Net) :=
  [.kubeconfig (x.join cfg.DataDir "/resources/kubeadmin/kubeconfig")
      "system:admin" ["system:masters"] cfg.Cluster.URL,
   .kubeconfig (x.join cfg.DataDir "/resources/kube-apiserver/kubeconfig")
      "kube-apiserver" ["kube-apiserver", "system:kube-apiserver", "system:masters"]
      cfg.Cluster.URL,
   .kubeconfig (x.join cfg.DataDir "/resources/kube-controller-manager/kubeconfig")
      "system:kube-controller-manager" ["system:kube-controller-manager"] cfg.Cluster.URL,
   .kubeconfig (x.join cfg.DataDir "/resources/kube-scheduler/kubeconfig")
      "system:kube-scheduler" ["system:kube-scheduler"] cfg.Cluster.URL,
   .kubeconfig (x.join cfg.DataDir "/resources/kubelet/kubeconfig")
      ("system:node:" ++ cfg.NodeName) ["system:nodes"] cfg.Cluster.URL]

/-- The calls `initCerts` goes through when nothing fails, as far as the network helpers
let it get. -/
def certSequence (x : Ext W Net IP Err) (cfg : MicroshiftConfig) : List (Call Net) :=
  match x.parseCIDR cfg.Cluster.ServiceCIDR with
  | .error _ => [.parseCIDR cfg.Cluster.ServiceCIDR]
  | .ok svcNet =>
    match x.serviceIPRange svcNet with
    | .error _ => [.parseCIDR cfg.Cluster.ServiceCIDR, .serviceIPRange svcNet]
    | .ok ip =>
      .parseCIDR cfg.Cluster.ServiceCIDR :: .serviceIPRange svcNet :: certCalls x cfg ip

/-- The calls `initAll` goes through when nothing fails, as far as the network helpers let
it get: those of `initCerts`, then those of `initKubeconfig`. -/
def bootstrapSequence (x : Ext W Net IP Err) (cfg : MicroshiftConfig) : List (Call Net) :=
  match x.parseCIDR cfg.Cluster.ServiceCIDR with
  | .error _ => [.parseCIDR cfg.Cluster.ServiceCIDR]
  | .ok svcNet =>
    match x.serviceIPRange svcNet with
    | .error _ => [.parseCIDR cfg.Cluster.ServiceCIDR, .serviceIPRange svcNet]
    | .ok ip =>
      .parseCIDR cfg.Cluster.ServiceCIDR :: .serviceIPRange svcNet ::
        (certCalls x cfg ip ++ kubeconfigCalls x cfg)

/-- A run that made the calls `made` and returned `r` went through the sequence `cs` and
stopped at its first failure: either every call of `cs` succeeded and `r` is `nil`, or the
calls before position `i` succeeded, the call at `i` returned the error `r`, and nothing
was called after it. -/
def StopsAtFirstFailure (cs : List (Call Net)) (made : List (Call Net × Option Err))
    (r : Option Err) : Prop :=
  (r = none ∧ made = cs.map (fun c => (c, none))) ∨
  (∃ i c e, cs[i]? = some c ∧ r = some e ∧
     made = (cs.take i).map (fun c => (c, none)) ++ [(c, some e)])

/-- The kinds of call the bootstrap makes. -/
inductive Kind where
  | cidr | serviceIP | ca | cert | keyPair | kubeconfig
  deriving DecidableEq, Repr

/-- The kind of a call. -/
def Call.kind {Net : Type} : Call Net → Kind
  | .parseCIDR _ => .cidr
  | .serviceIPRange _ => .serviceIP
  | .storeRootCA .. => .ca
  | .genCerts .. => .cert
  | .genKeys .. => .keyPair
  | .kubeconfig .. => .kubeconfig

/-- The position of a kind of call in the order spec section 4.6 gives: the CA, then the
service IP (its CIDR parsed for it), then certificates, then key pairs, then kubeconfigs. -/
def specStage : Kind → Nat
  | .ca => 0
  | .cidr => 1
  | .serviceIP => 1
  | .cert => 2
  | .keyPair => 3
  | .kubeconfig => 4

/-- The order in which `initAll` makes its calls when nothing fails. -/
def sourceOrder : List Kind :=
  [.cidr, .serviceIP, .ca, .cert, .cert, .cert, .cert, .keyPair, .cert, .cert, .keyPair,
   .cert, .cert, .cert, .kubeconfig, .kubeconfig, .kubeconfig, .kubeconfig, .kubeconfig]

/-- The common names of the serving certificates of the components on the local node: etcd,
the API server, the kubelet, openshift-controller-manager and service-ca. -/
def localServingNames : List String :=
  ["etcd-server", "kube-apiserver", "kubelet", "openshift-controller-manager", "service-ca"]

/-- The files of the whole bootstrap under a data directory, in the order of the calls. -/
def allTargets (dataDir : String) : List String :=
  let f (sub name : String) : String := filepathJoin (filepathJoin dataDir sub) name
  [f "/certs/ca-bundle" "ca-bundle.crt", f "/certs/ca-bundle" "ca-bundle.key",
   f "/certs/etcd" "etcd-serving.crt", f "/certs/etcd" "etcd-serving.key",
   f "/certs/etcd" "etcd-peer.crt", f "/certs/etcd" "etcd-peer.key",
   f "/resources/kube-apiserver/secrets/etcd-client" "tls.crt",
   f "/resources/kube-apiserver/secrets/etcd-client" "tls.key",
   f "/certs/kube-apiserver/secrets/service-network-serving-certkey" "tls.crt",
   f "/certs/kube-apiserver/secrets/service-network-serving-certkey" "tls.key",
   f "/resources/kube-apiserver/secrets/service-account-key" "service-account.crt",
   f "/resources/kube-apiserver/secrets/service-account-key" "service-account.key",
   f "/certs/kube-apiserver/secrets/aggregator-client" "tls.crt",
   f "/certs/kube-apiserver/secrets/aggregator-client" "tls.key",
   f "/resources/kube-apiserver/secrets/kubelet-client" "tls.crt",
   f "/resources/kube-apiserver/secrets/kubelet-client" "tls.key",
   f "/resources/kube-apiserver/sa-public-key" "serving-ca.pub",
   f "/resources/kube-apiserver/sa-public-key" "serving-ca.key",
   f "/resources/kubelet/secrets/kubelet-client" "tls.crt",
   f "/resources/kubelet/secrets/kubelet-client" "tls.key",
   f "/resources/openshift-controller-manager/secrets" "tls.crt",
   f "/resources/openshift-controller-manager/secrets" "tls.key",
   f "/resources/service-ca/secrets/service-ca" "tls.crt",
   f "/resources/service-ca/secrets/service-ca" "tls.key",
   filepathJoin dataDir "/resources/kubeadmin/kubeconfig",
   filepathJoin dataDir "/resources/kube-apiserver/kubeconfig",
   filepathJoin dataDir "/resources/kube-controller-manager/kubeconfig",
   filepathJoin dataDir "/resources/kube-scheduler/kubeconfig",
   filepathJoin dataDir "/resources/kubelet/kubeconfig"]

/-- An element `Clean` keeps as it is: not empty, not `.`, and free of separators. -/
def KeptElement (el : List Char) : Prop :=
  el ≠ [] ∧ el ≠ ['.'] ∧ '/' ∉ el

instance (el : List Char) : Decidable (KeptElement el) := by
  unfold KeptElement; infer_instance

/-- A name that `Clean` pushes onto the kept elements: a kept element other than `..`. -/
def PlainElement (el : List Char) : Prop :=
  KeptElement el ∧ el ≠ ['.', '.']

instance (el : List Char) : Decidable (PlainElement el) := by
  unfold PlainElement; infer_instance

/-- The shape of the elements `Clean` has kept: each one is a kept element, and a `..` can
only stand in an unrooted path with nothing but `..` before it. -/
def Canonical (rooted : Bool) (kept : List (List Char)) : Prop :=
  ∀ before el after, kept = before ++ el :: after →
    KeptElement el ∧ (el = ['.', '.'] → rooted = false ∧ ∀ y ∈ before, y = ['.', '.'])

/-- The text of a cleaned path with the elements `kept`. -/
def render (rooted : Bool) (kept : List (List Char)) : List Char :=
  if rooted then (if kept = [] then ['/'] else slashed kept)
  else (if kept = [] then ['.'] else (slashed kept).tail)

/-- Whether the data directory makes the joined paths rooted: `Join` drops an empty first
element, and the sub-paths all start with a separator. -/
def dirRooted (dataDir : List Char) : Bool :=
  if dataDir = [] then true else decide (dataDir.head? = some '/')

/-- The elements `Clean` keeps of the data directory. -/
def dirKept (dataDir : List Char) : List (List Char) :=
  if dataDir = [] then [] else (splitSlash dataDir).foldl (cleanStep (dirRooted dataDir)) []

/-- The elements of a sub-path written as `/a/b/c`. -/
def subElements (sub : String) : List (List Char) := (splitSlash sub.data).tail

/-- A sub-path of the form `/a/b/c` with plain names. -/
def GoodSub (sub : String) : Prop :=
  sub.data = slashed (subElements sub) ∧ subElements sub ≠ [] ∧
    ∀ el ∈ subElements sub, PlainElement el

instance (sub : String) : Decidable (GoodSub sub) := by
  unfold GoodSub; infer_instance

/-- The path elements, below the data directory, of the twenty-nine files of the
bootstrap, in the order of the calls. -/
def targetElements : List (List String) :=
  [["certs", "ca-bundle", "ca-bundle.crt"], ["certs", "ca-bundle", "ca-bundle.key"],
   ["certs", "etcd", "etcd-serving.crt"], ["certs", "etcd", "etcd-serving.key"],
   ["certs", "etcd", "etcd-peer.crt"], ["certs", "etcd", "etcd-peer.key"],
   ["resources", "kube-apiserver", "secrets", "etcd-client", "tls.crt"],
   ["resources", "kube-apiserver", "secrets", "etcd-client", "tls.key"],
   ["certs", "kube-apiserver", "secrets", "service-network-serving-certkey", "tls.crt"],
   ["certs", "kube-apiserver", "secrets", "service-network-serving-certkey", "tls.key"],
   ["resources", "kube-apiserver", "secrets", "service-account-key", "service-account.crt"],
   ["resources", "kube-apiserver", "secrets", "service-account-key", "service-account.key"],
   ["certs", "kube-apiserver", "secrets", "aggregator-client", "tls.crt"],
   ["certs", "kube-apiserver", "secrets", "aggregator-client", "tls.key"],
   ["resources", "kube-apiserver", "secrets", "kubelet-client", "tls.crt"],
   ["resources", "kube-apiserver", "secrets", "kubelet-client", "tls.key"],
   ["resources", "kube-apiserver", "sa-public-key", "serving-ca.pub"],
   ["resources", "kube-apiserver", "sa-public-key", "serving-ca.key"],
   ["resources", "kubelet", "secrets", "kubelet-client", "tls.crt"],
   ["resources", "kubelet", "secrets", "kubelet-client", "tls.key"],
   ["resources", "openshift-controller-manager", "secrets", "tls.crt"],
   ["resources", "openshift-controller-manager", "secrets", "tls.key"],
   ["resources", "service-ca", "secrets", "service-ca", "tls.crt"],
   ["resources", "service-ca", "secrets", "service-ca", "tls.key"],
   ["resources", "kubeadmin", "kubeconfig"],
   ["resources", "kube-apiserver", "kubeconfig"],
   ["resources", "kube-controller-manager", "kubeconfig"],
   ["resources", "kube-scheduler", "kubeconfig"],
   ["resources", "kubelet", "kubeconfig"]]

/-- The cleaned path of the file with elements `els` below the data directory. -/
def targetPath (dataDir : String) (els : List String) : String :=
  String.mk (render (dirRooted dataDir.data) (dirKept dataDir.data ++ els.map String.data))

/-- The files written by the calls of a run, in order. -/
def targetsMade (x : Ext W Net IP Err) (cfg : MicroshiftConfig) (s : St W Net Err) :
    List String :=
  (callsMade x cfg s).flatMap (fun entry => entry.1.targets)

/-! ## A concrete environment -/

/-- An environment over a world that lists the files written: the service CIDR is read by
`ParseCIDRv4` and the service IP derived by `ServiceIPRange`, paths are joined by
`filepath.Join`, and a call fails with an I/O error exactly when `failing` selects it,
writing its files otherwise. -/
def diskExt (failing : Call IPNet → Bool) : Ext (List String) IPNet Nat String where
  parseCIDR := ParseCIDRv4
  serviceIPRange := ServiceIPRange
  ipString := ipString
  join := filepathJoin
  exec := fun c w => if failing c then (some "IOError", w) else (none, w ++ c.targets)

/-- The configuration `NewMicroshiftConfig` builds on a host named `node1` at
`192.168.1.10` with the global data directory and no configuration file. -/
def sampleConfig : MicroshiftConfig where
  ConfigFile := ""
  DataDir := "/var/lib/microshift"
  AuditLogDir := ""
  LogVLevel := 0
  Roles := defaultRoles
  NodeName := "node1"
  NodeIP := "192.168.1.10"
  Cluster :=
    { URL := "https://127.0.0.1:6443"
      ClusterCIDR := "10.42.0.0/16"
      ServiceCIDR := "10.43.0.0/16"
      ServiceNodePortRange := "30000-32767"
      DNS := "10.43.0.10"
      Domain := "cluster.local"
      MTU := "1400" }
  Manifests := [defaultManifestDirLib, defaultManifestDirEtc, "/var/lib/microshift/manifests"]
  Debug := { Pprof := false }

/-- A host whose configuration file holds the single key `roles` with the list `roles`,
decoded as `yaml.Unmarshal` does, and whose environment sets nothing; its defaults are those
of `sampleConfig`. -/
def fileEnv (roles : List String) : ConfigEnv where
  readFile := fun _ => .ok ("roles: [" ++ ", ".intercalate roles ++ "]\n")
  yamlUnmarshal := fun _ c p => (none, decodeRoles roles c p)
  envconfigProcess := fun c p => (none, c, p)
  defaultCfg := sampleConfig
  join := filepathJoin
  atoi := fun _ => 0

/-- A host with no configuration file and an environment that sets nothing, whose defaults
are those of `sampleConfig`. -/
def sampleEnv : ConfigEnv where
  readFile := fun _ => .error "no such file"
  yamlUnmarshal := fun _ c p => (none, c, p)
  envconfigProcess := fun c p => (none, c, p)
  defaultCfg := sampleConfig
  join := filepathJoin
  atoi := fun _ => 0

/-- The configuration of `sampleConfig` on a host where the global configuration file
exists, so that `findConfigFile` returns its path. -/
def sampleConfigWithFile : MicroshiftConfig :=
  { sampleConfig with ConfigFile := "/etc/microshift/config.yaml" }

/-- A command line on which no flag is set. -/
def noFlags : FlagSet where
  getString := fun _ => .ok ""
  getStringSlice := fun _ => .ok []
  getBool := fun _ => .ok false
  lookup := fun _ => none
  changed := fun _ => false

/-- A command line that sets `--roles` to `roles` and nothing else. -/
def rolesFlags (roles : List String) : FlagSet where
  getString := fun _ => .ok ""
  getStringSlice := fun name => if name = "roles" then .ok roles else .ok []
  getBool := fun _ => .ok false
  lookup := fun _ => none
  changed := fun name => name = "roles"

/-- The state before the bootstrap: nothing written, nothing called. -/
def emptyState : St (List String) IPNet String := { world := [], log := [] }

/-! ## The shape of a run -/

theorem record_log (s : St W Net Err) (c : Call Net) (r : Option Err) :
    (s.record c r).log = s.log ++ [(c, r)] := rfl

theorem runCalls_log (x : Ext W Net IP Err) (cs : List (Call Net)) :
    ∀ s : St W Net Err, ∃ made, (runCalls x cs s).2.log = s.log ++ made ∧
      StopsAtFirstFailure cs made (runCalls x cs s).1 := by
  induction cs with
  | nil =>
    intro s
    exact ⟨[], by simp [runCalls, returnNil], Or.inl ⟨rfl, rfl⟩⟩
  | cons c cs ih =>
    intro s
    rcases hx : x.exec c s.world with ⟨_ | err, w⟩
    · obtain ⟨made, hlog, hstop⟩ := ih (St.record { s with world := w } c none)
      refine ⟨(c, none) :: made, ?_, ?_⟩
      · simp only [runCalls, callStep, hx]
        rw [hlog, record_log]
        simp
      · simp only [runCalls, callStep, hx]
        rcases hstop with ⟨hr, hm⟩ | ⟨i, c', e, hi, hr, hm⟩
        · exact Or.inl ⟨hr, by simp [hm]⟩
        · exact Or.inr ⟨i + 1, c', e, by simpa using hi, hr, by simp [hm]⟩
    · refine ⟨[(c, some err)], ?_, Or.inr ⟨0, c, err, by simp, ?_, ?_⟩⟩
      · simp only [runCalls, callStep, hx]
        rfl
      · simp only [runCalls, callStep, hx]
      · simp

theorem runCalls_append (x : Ext W Net IP Err) (a b : List (Call Net)) :
    ∀ s : St W Net Err, runCalls x (a ++ b) s =
      match runCalls x a s with
      | (some err, s1) => (some err, s1)
      | (none, s1) => runCalls x b s1 := by
  induction a with
  | nil => intro s; simp [runCalls, returnNil]
  | cons c a ih =>
    intro s
    rcases hx : x.exec c s.world with ⟨_ | err, w⟩
    · simp only [List.cons_append, runCalls, callStep, hx]
      exact ih _
    · simp only [List.cons_append, runCalls, callStep, hx]

theorem initKubeconfig_eq_runCalls (x : Ext W Net IP Err) (cfg : MicroshiftConfig)
    (s : St W Net Err) : initKubeconfig x cfg s = runCalls x (kubeconfigCalls x cfg) s := rfl

theorem initCerts_eq_runCalls (x : Ext W Net IP Err) (cfg : MicroshiftConfig)
    (s : St W Net Err) (svcNet : Net) (ip : IP)
    (hparse : x.parseCIDR cfg.Cluster.ServiceCIDR = .ok svcNet)
    (hip : x.serviceIPRange svcNet = .ok ip) :
    initCerts x cfg s = runCalls x (certCalls x cfg ip)
      ((s.record (.parseCIDR cfg.Cluster.ServiceCIDR) none).record
        (.serviceIPRange svcNet) none) := by
  simp only [initCerts, hparse, hip]
  rfl

theorem initAll_eq_runCalls (x : Ext W Net IP Err) (cfg : MicroshiftConfig)
    (s : St W Net Err) (svcNet : Net) (ip : IP)
    (hparse : x.parseCIDR cfg.Cluster.ServiceCIDR = .ok svcNet)
    (hip : x.serviceIPRange svcNet = .ok ip) :
    initAll x cfg s = runCalls x (certCalls x cfg ip ++ kubeconfigCalls x cfg)
      ((s.record (.parseCIDR cfg.Cluster.ServiceCIDR) none).record
        (.serviceIPRange svcNet) none) := by
  rw [runCalls_append, ← initCerts_eq_runCalls x cfg s svcNet ip hparse hip]
  unfold initAll
  rcases initCerts x cfg s with ⟨_ | err, s1⟩
  · simp only [initKubeconfig_eq_runCalls]
    rcases runCalls x (kubeconfigCalls x cfg) s1 with ⟨_ | err, s2⟩ <;> rfl
  · rfl

theorem initAll_log (x : Ext W Net IP Err) (cfg : MicroshiftConfig) (s : St W Net Err) :
    ∃ made, (initAll x cfg s).2.log = s.log ++ made ∧
      StopsAtFirstFailure (bootstrapSequence x cfg) made (initAll x cfg s).1 := by
  rcases hparse : x.parseCIDR cfg.Cluster.ServiceCIDR with err | svcNet
  · refine ⟨[(.parseCIDR cfg.Cluster.ServiceCIDR, some err)], ?_, Or.inr ⟨0, .parseCIDR cfg.Cluster.ServiceCIDR, err, ?_, ?_, ?_⟩⟩
    · simp [initAll, initCerts, hparse, record_log]
    · simp [bootstrapSequence, hparse]
    · simp [initAll, initCerts, hparse]
    · simp
  · rcases hip : x.serviceIPRange svcNet with err | ip
    · refine ⟨[(.parseCIDR cfg.Cluster.ServiceCIDR, none), (.serviceIPRange svcNet, some err)],
        ?_, Or.inr ⟨1, .serviceIPRange svcNet, err, ?_, ?_, ?_⟩⟩
      · simp [initAll, initCerts, hparse, hip, record_log]
      · simp [bootstrapSequence, hparse, hip]
      · simp [initAll, initCerts, hparse, hip]
      · simp [bootstrapSequence, hparse, hip]
    · rw [initAll_eq_runCalls x cfg s svcNet ip hparse hip]
      obtain ⟨made, hlog, hstop⟩ := runCalls_log x (certCalls x cfg ip ++ kubeconfigCalls x cfg)
        ((s.record (.parseCIDR cfg.Cluster.ServiceCIDR) none).record (.serviceIPRange svcNet) none)
      refine ⟨(.parseCIDR cfg.Cluster.ServiceCIDR, none) :: (.serviceIPRange svcNet, none) :: made,
        ?_, ?_⟩
      · rw [hlog]; simp [record_log]
      · have hseq : bootstrapSequence x cfg = .parseCIDR cfg.Cluster.ServiceCIDR ::
            .serviceIPRange svcNet :: (certCalls x cfg ip ++ kubeconfigCalls x cfg) := by
          simp [bootstrapSequence, hparse, hip]
        rw [hseq]
        rcases hstop with ⟨hr, hm⟩ | ⟨i, c', e, hi, hr, hm⟩
        · exact Or.inl ⟨hr, by simp [hm]⟩
        · exact Or.inr ⟨i + 2, c', e, by simpa using hi, hr, by simp [hm]⟩

theorem callsMade_stops (x : Ext W Net IP Err) (cfg : MicroshiftConfig) (s : St W Net Err) :
    StopsAtFirstFailure (bootstrapSequence x cfg) (callsMade x cfg s) (initAll x cfg s).1 := by
  obtain ⟨made, hlog, hstop⟩ := initAll_log x cfg s
  have : callsMade x cfg s = made := by simp [callsMade, hlog]
  rw [this]; exact hstop

theorem StopsAtFirstFailure.mem {cs : List (Call Net)} {made : List (Call Net × Option Err)}
    {r : Option Err} (h : StopsAtFirstFailure cs made r) {entry : Call Net × Option Err}
    (hmem : entry ∈ made) : entry.1 ∈ cs := by
  rcases h with ⟨_, hm⟩ | ⟨i, c, e, hi, _, hm⟩
  · subst hm
    obtain ⟨c, hc, rfl⟩ := List.mem_map.1 hmem
    exact hc
  · subst hm
    rcases List.mem_append.1 hmem with h1 | h1
    · obtain ⟨c', hc, rfl⟩ := List.mem_map.1 h1
      exact List.mem_of_mem_take hc
    · rw [List.mem_singleton] at h1
      subst h1
      exact List.getElem?_mem hi

theorem StopsAtFirstFailure.all_of_nil {cs : List (Call Net)}
    {made : List (Call Net × Option Err)} {r : Option Err}
    (h : StopsAtFirstFailure cs made r) (hr : r = none) :
    made = cs.map (fun c => (c, none)) := by
  rcases h with ⟨_, hm⟩ | ⟨i, c, e, _, hr', _⟩
  · exact hm
  · rw [hr] at hr'; cases hr'

theorem initCerts_log (x : Ext W Net IP Err) (cfg : MicroshiftConfig) (s : St W Net Err) :
    ∃ made, (initCerts x cfg s).2.log = s.log ++ made ∧
      StopsAtFirstFailure (certSequence x cfg) made (initCerts x cfg s).1 := by
  rcases hparse : x.parseCIDR cfg.Cluster.ServiceCIDR with err | svcNet
  · refine ⟨[(.parseCIDR cfg.Cluster.ServiceCIDR, some err)], ?_,
      Or.inr ⟨0, .parseCIDR cfg.Cluster.ServiceCIDR, err, ?_, ?_, ?_⟩⟩
    · simp [initCerts, hparse, record_log]
    · simp [certSequence, hparse]
    · simp [initCerts, hparse]
    · simp
  · rcases hip : x.serviceIPRange svcNet with err | ip
    · refine ⟨[(.parseCIDR cfg.Cluster.ServiceCIDR, none), (.serviceIPRange svcNet, some err)],
        ?_, Or.inr ⟨1, .serviceIPRange svcNet, err, ?_, ?_, ?_⟩⟩
      · simp [initCerts, hparse, hip, record_log]
      · simp [certSequence, hparse, hip]
      · simp [initCerts, hparse, hip]
      · simp [certSequence, hparse, hip]
    · rw [initCerts_eq_runCalls x cfg s svcNet ip hparse hip]
      obtain ⟨made, hlog, hstop⟩ := runCalls_log x (certCalls x cfg ip)
        ((s.record (.parseCIDR cfg.Cluster.ServiceCIDR) none).record (.serviceIPRange svcNet) none)
      refine ⟨(.parseCIDR cfg.Cluster.ServiceCIDR, none) :: (.serviceIPRange svcNet, none) :: made,
        ?_, ?_⟩
      · rw [hlog]; simp [record_log]
      · have hseq : certSequence x cfg = .parseCIDR cfg.Cluster.ServiceCIDR ::
            .serviceIPRange svcNet :: certCalls x cfg ip := by
          simp [certSequence, hparse, hip]
        rw [hseq]
        rcases hstop with ⟨hr, hm⟩ | ⟨i, c', e, hi, hr, hm⟩
        · exact Or.inl ⟨hr, by simp [hm]⟩
        · exact Or.inr ⟨i + 2, c', e, by simpa using hi, hr, by simp [hm]⟩

theorem certCallsMade_stops (x : Ext W Net IP Err) (cfg : MicroshiftConfig)
    (s : St W Net Err) :
    StopsAtFirstFailure (certSequence x cfg) (certCallsMade x cfg s) (initCerts x cfg s).1 := by
  obtain ⟨made, hlog, hstop⟩ := initCerts_log x cfg s
  have : certCallsMade x cfg s = made := by simp [certCallsMade, hlog]
  rw [this]; exact hstop

theorem kubeconfigCallsMade_stops (x : Ext W Net IP Err) (cfg : MicroshiftConfig)
    (s : St W Net Err) :
    StopsAtFirstFailure (kubeconfigCalls x cfg) (kubeconfigCallsMade x cfg s)
      (initKubeconfig x cfg s).1 := by
  obtain ⟨made, hlog, hstop⟩ := runCalls_log x (kubeconfigCalls x cfg) s
  rw [← initKubeconfig_eq_runCalls] at hlog hstop
  have : kubeconfigCallsMade x cfg s = made := by simp [kubeconfigCallsMade, hlog]
  rw [this]; exact hstop

theorem StopsAtFirstFailure.calls_eq_take {cs : List (Call Net)}
    {made : List (Call Net × Option Err)} {r : Option Err}
    (h : StopsAtFirstFailure cs made r) : made.map Prod.fst = cs.take made.length := by
  rcases h with ⟨_, hm⟩ | ⟨i, c, e, hi, _, hm⟩
  · subst hm
    simp [Function.comp_def]
  · obtain ⟨hlt, -⟩ := List.getElem?_eq_some_iff.1 hi
    subst hm
    have hlen : min i cs.length = i := Nat.min_eq_left (Nat.le_of_lt hlt)
    simp [Function.comp_def, List.take_succ, hi, hlen]

theorem StopsAtFirstFailure.call_at {cs : List (Call Net)}
    {made : List (Call Net × Option Err)} {r : Option Err}
    (h : StopsAtFirstFailure cs made r) {i : Nat} {entry : Call Net × Option Err}
    (hi : made[i]? = some entry) : cs[i]? = some entry.1 := by
  have hlt : i < made.length := (List.getElem?_eq_some_iff.1 hi).1
  have h1 : (made.map Prod.fst)[i]? = some entry.1 := by simp [hi]
  rw [h.calls_eq_take, List.getElem?_take_of_lt hlt] at h1
  exact h1

theorem StopsAtFirstFailure.failure_is_last {cs : List (Call Net)}
    {made : List (Call Net × Option Err)} {r : Option Err}
    (h : StopsAtFirstFailure cs made r) {i : Nat} {c : Call Net} {e : Err}
    (hi : made[i]? = some (c, some e)) : r = some e ∧ made.length = i + 1 := by
  rcases h with ⟨_, hm⟩ | ⟨k, c0, e0, hk, hr, hm⟩
  · subst hm
    simp at hi
  · obtain ⟨hlt, -⟩ := List.getElem?_eq_some_iff.1 hk
    have hlen : ((cs.take k).map (fun c => ((c, none) : Call Net × Option Err))).length = k := by
      simp [Nat.min_eq_left (Nat.le_of_lt hlt)]
    subst hm
    rcases Nat.lt_or_ge i k with hik | hik
    · rw [List.getElem?_append_left (by rw [hlen]; exact hik)] at hi
      obtain ⟨c', -, hc'⟩ := List.mem_map.1 (List.getElem?_mem hi)
      cases hc'
    · rw [List.getElem?_append_right (by rw [hlen]; exact hik), hlen] at hi
      have hz : i - k = 0 := by
        rcases Nat.eq_zero_or_pos (i - k) with h0 | h0
        · exact h0
        · rw [List.getElem?_eq_none (by simp only [List.length_singleton]; omega)] at hi
          cases hi
      rw [hz] at hi
      simp at hi
      have hik' : i = k := by omega
      subst hik'
      refine ⟨by rw [hr, hi.2], ?_⟩
      simp [Nat.min_eq_left (Nat.le_of_lt hlt)]

theorem StopsAtFirstFailure.earlier_succeeded {cs : List (Call Net)}
    {made : List (Call Net × Option Err)} {r : Option Err}
    (h : StopsAtFirstFailure cs made r) {i j : Nat} {entry entry' : Call Net × Option Err}
    (hi : made[i]? = some entry) (hji : j < i) (hj : made[j]? = some entry') :
    entry'.2 = none := by
  obtain ⟨c, res⟩ := entry'
  cases res with
  | none => rfl
  | some e =>
    have := (h.failure_is_last hj).2
    have hlt : i < made.length := (List.getElem?_eq_some_iff.1 hi).1
    omega

theorem StopsAtFirstFailure.next_is_made {cs : List (Call Net)}
    {made : List (Call Net × Option Err)} {r : Option Err}
    (h : StopsAtFirstFailure cs made r) {i : Nat} (hi : i < cs.length)
    (hprev : ∀ j < i, ∀ entry, made[j]? = some entry → entry.2 = none) :
    ∃ res, made[i]? = some (cs[i], res) := by
  have hmade : i < made.length := by
    rcases h with ⟨_, hm⟩ | ⟨k, c0, e0, hk, hr, hm⟩
    · subst hm; simpa using hi
    · obtain ⟨hlt, -⟩ := List.getElem?_eq_some_iff.1 hk
      have hlen : made.length = k + 1 := by
        subst hm; simp [Nat.min_eq_left (Nat.le_of_lt hlt)]
      rcases Nat.lt_or_ge i (k + 1) with hik | hik
      · omega
      · exfalso
        have hkm : made[k]? = some (c0, some e0) := by
          subst hm
          rw [List.getElem?_append_right (by simp [Nat.min_eq_left (Nat.le_of_lt hlt)])]
          simp [Nat.min_eq_left (Nat.le_of_lt hlt)]
        have := hprev k (by omega) _ hkm
        cases this
  have hentry : made[i]? = some made[i] := List.getElem?_eq_getElem hmade
  have hcall := h.call_at hentry
  rw [List.getElem?_eq_getElem hi] at hcall
  refine ⟨made[i].2, ?_⟩
  rw [hentry]
  congr 1
  exact Prod.ext (Option.some.inj hcall).symm rfl

/-- What `certSequence` is once both network helpers have answered. -/
theorem certSequence_cases (x : Ext W Net IP Err) (cfg : MicroshiftConfig) :
    (∃ svcNet ip, x.parseCIDR cfg.Cluster.ServiceCIDR = .ok svcNet ∧
        x.serviceIPRange svcNet = .ok ip ∧
        certSequence x cfg = .parseCIDR cfg.Cluster.ServiceCIDR ::
          .serviceIPRange svcNet :: certCalls x cfg ip) ∨
    (∀ c ∈ certSequence x cfg, c.kind = .cidr ∨ c.kind = .serviceIP) := by
  rcases hparse : x.parseCIDR cfg.Cluster.ServiceCIDR with err | svcNet
  · right
    intro c hc
    simp [certSequence, hparse] at hc
    subst hc; exact Or.inl rfl
  · rcases hip : x.serviceIPRange svcNet with err | ip
    · right
      intro c hc
      simp [certSequence, hparse, hip] at hc
      rcases hc with rfl | rfl
      · exact Or.inl rfl
      · exact Or.inr rfl
    · left
      exact ⟨svcNet, ip, rfl, hip, by simp [certSequence, hparse, hip]⟩

theorem bootstrapSequence_kinds (x : Ext W Net IP Err) (cfg : MicroshiftConfig) :
    (bootstrapSequence x cfg).map Call.kind =
      sourceOrder.take (bootstrapSequence x cfg).length := by
  rcases hparse : x.parseCIDR cfg.Cluster.ServiceCIDR with err | svcNet
  · simp [bootstrapSequence, hparse, sourceOrder, Call.kind]
  · rcases hip : x.serviceIPRange svcNet with err | ip
    · simp [bootstrapSequence, hparse, hip, sourceOrder, Call.kind]
    · simp [bootstrapSequence, hparse, hip, sourceOrder, Call.kind, certCalls, kubeconfigCalls]

theorem initAll_nil_length (x : Ext W Net IP Err) (cfg : MicroshiftConfig) (s : St W Net Err)
    (hnil : (initAll x cfg s).1 = none) : (bootstrapSequence x cfg).length = 19 := by
  rcases hparse : x.parseCIDR cfg.Cluster.ServiceCIDR with err | svcNet
  · simp [initAll, initCerts, hparse] at hnil
  · rcases hip : x.serviceIPRange svcNet with err | ip
    · simp [initAll, initCerts, hparse, hip] at hnil
    · simp [bootstrapSequence, hparse, hip, certCalls, kubeconfigCalls]

theorem callsMade_kinds (x : Ext W Net IP Err) (cfg : MicroshiftConfig) (s : St W Net Err) :
    (callsMade x cfg s).map (fun entry => entry.1.kind) =
      sourceOrder.take (callsMade x cfg s).length := by
  have hstop := callsMade_stops x cfg s
  have h1 := hstop.calls_eq_take
  have hle : (callsMade x cfg s).length ≤ (bootstrapSequence x cfg).length := by
    have := congrArg List.length h1
    simp at this
    omega
  have h2 : (callsMade x cfg s).map (fun entry => entry.1.kind) =
      ((callsMade x cfg s).map Prod.fst).map Call.kind := by
    simp [Function.comp_def]
  rw [h2, h1, List.map_take, bootstrapSequence_kinds, List.take_take, Nat.min_eq_left hle]

theorem kubeconfig_position : ∀ i, i < 19 → sourceOrder[i]? = some Kind.kubeconfig → 14 ≤ i := by
  decide

/-! ## Paths -/

theorem splitSlash_ne_nil (p : List Char) : splitSlash p ≠ [] := by
  cases p with
  | nil => simp [splitSlash]
  | cons c cs =>
    unfold splitSlash
    split
    · simp
    · split <;> simp

theorem splitSlash_cons_slash (p : List Char) : splitSlash ('/' :: p) = [] :: splitSlash p := by
  simp [splitSlash]

theorem splitSlash_cons_other (c : Char) (p : List Char) (hc : c ≠ '/') (h : List Char)
    (t : List (List Char)) (hp : splitSlash p = h :: t) :
    splitSlash (c :: p) = (c :: h) :: t := by
  simp [splitSlash, hc, hp]

theorem splitSlash_append_slash (a b : List Char) :
    splitSlash (a ++ '/' :: b) = splitSlash a ++ splitSlash b := by
  induction a with
  | nil => simp [splitSlash]
  | cons c a ih =>
    by_cases hc : c = '/'
    · subst hc
      simp [splitSlash_cons_slash, ih]
    · obtain ⟨h, t, ht⟩ : ∃ h t, splitSlash a = h :: t := by
        cases hs : splitSlash a with
        | nil => exact absurd hs (splitSlash_ne_nil a)
        | cons h t => exact ⟨h, t, rfl⟩
      rw [List.cons_append, splitSlash_cons_other c _ hc h (t ++ splitSlash b) (by rw [ih, ht]; rfl),
        splitSlash_cons_other c a hc h t ht]
      rfl

theorem splitSlash_free_append (el r : List Char) (hel : '/' ∉ el) (h : List Char)
    (t : List (List Char)) (hr : splitSlash r = h :: t) :
    splitSlash (el ++ r) = (el ++ h) :: t := by
  induction el with
  | nil => simpa using hr
  | cons c el ih =>
    have hc : c ≠ '/' := fun hc => hel (by simp [hc])
    have hel' : '/' ∉ el := fun hm => hel (List.mem_cons_of_mem _ hm)
    rw [List.cons_append, splitSlash_cons_other c _ hc (el ++ h) t (ih hel')]
    rfl

theorem splitSlash_slashed (els : List (List Char)) (h : ∀ el ∈ els, '/' ∉ el) :
    splitSlash (slashed els) = [] :: els := by
  induction els with
  | nil => simp [slashed, splitSlash]
  | cons el els ih =>
    have h1 : slashed (el :: els) = '/' :: (el ++ slashed els) := by simp [slashed]
    rw [h1, splitSlash_cons_slash,
      splitSlash_free_append el _ (h el (List.mem_cons_self _ _)) [] els
        (ih fun e he => h e (List.mem_cons_of_mem _ he))]
    simp

theorem splitSlash_free (p : List Char) : ∀ el ∈ splitSlash p, '/' ∉ el := by
  induction p with
  | nil => simp [splitSlash]
  | cons c p ih =>
    by_cases hc : c = '/'
    · subst hc
      rw [splitSlash_cons_slash]
      intro el hel
      rcases List.mem_cons.1 hel with rfl | hel
      · simp
      · exact ih el hel
    · obtain ⟨h, t, ht⟩ : ∃ h t, splitSlash p = h :: t := by
        cases hs : splitSlash p with
        | nil => exact absurd hs (splitSlash_ne_nil p)
        | cons h t => exact ⟨h, t, rfl⟩
      rw [splitSlash_cons_other c p hc h t ht]
      rw [ht] at ih
      intro el hel
      rcases List.mem_cons.1 hel with rfl | hel
      · intro hm
        rcases List.mem_cons.1 hm with h1 | h1
        · exact hc h1.symm
        · exact ih h (List.mem_cons_self _ _) h1
      · exact ih el (List.mem_cons_of_mem _ hel)

theorem slashed_append (a b : List (List Char)) : slashed (a ++ b) = slashed a ++ slashed b := by
  simp [slashed]

theorem slashed_cons (el : List Char) (els : List (List Char)) :
    slashed (el :: els) = '/' :: (el ++ slashed els) := by
  simp [slashed]

theorem slashed_injective (a b : List (List Char)) (ha : ∀ el ∈ a, '/' ∉ el)
    (hb : ∀ el ∈ b, '/' ∉ el) (h : slashed a = slashed b) : a = b := by
  have h1 := splitSlash_slashed a ha
  rw [h, splitSlash_slashed b hb] at h1
  exact (List.cons.inj h1).2.symm

theorem cleanStep_plain (rooted : Bool) (kept : List (List Char)) (el : List Char)
    (h : PlainElement el) : cleanStep rooted kept el = kept ++ [el] := by
  obtain ⟨⟨h1, h2, -⟩, h3⟩ := h
  simp [cleanStep, h1, h2, h3]

theorem cleanStep_empty (rooted : Bool) (kept : List (List Char)) :
    cleanStep rooted kept [] = kept := by
  simp [cleanStep]

theorem foldl_cleanStep_plain (rooted : Bool) (els : List (List Char)) :
    ∀ kept, (∀ el ∈ els, PlainElement el) →
      els.foldl (cleanStep rooted) kept = kept ++ els := by
  induction els with
  | nil => intro kept _; simp
  | cons el els ih =>
    intro kept h
    rw [List.foldl_cons, cleanStep_plain rooted kept el (h el (List.mem_cons_self _ _)),
      ih _ fun e he => h e (List.mem_cons_of_mem _ he)]
    simp

theorem eq_nil_or_snoc {α : Type} (l : List α) : l = [] ∨ ∃ init last, l = init ++ [last] := by
  rcases List.eq_nil_or_concat l with h | ⟨init, last, h⟩
  · exact Or.inl h
  · exact Or.inr ⟨init, last, by rw [h, List.concat_eq_append]⟩

theorem snoc_decompose {α : Type} {before after kept : List α} {el last : α}
    (h : before ++ el :: after = kept ++ [last]) :
    (after = [] ∧ before = kept ∧ el = last) ∨
    (∃ mid, after = mid ++ [last] ∧ kept = before ++ el :: mid) := by
  rcases eq_nil_or_snoc after with rfl | ⟨mid, b, rfl⟩
  · left
    have h1 : before ++ [el] = kept ++ [last] := h
    obtain ⟨h2, h3⟩ := List.append_inj' h1 rfl
    exact ⟨rfl, h2, by simpa using h3⟩
  · right
    have h1 : (before ++ el :: mid) ++ [b] = kept ++ [last] := by simpa using h
    obtain ⟨h2, h3⟩ := List.append_inj' h1 rfl
    have hb : b = last := by simpa using h3
    subst hb
    exact ⟨mid, rfl, h2.symm⟩

theorem Canonical.nil (rooted : Bool) : Canonical rooted [] := by
  intro before el after h
  simp at h

theorem Canonical.snoc_plain {rooted : Bool} {kept : List (List Char)} {el : List Char}
    (hk : Canonical rooted kept) (hel : PlainElement el) : Canonical rooted (kept ++ [el]) := by
  intro before e after h
  rcases snoc_decompose h.symm with ⟨-, -, rfl⟩ | ⟨mid, -, hkept⟩
  · exact ⟨hel.1, fun hdd => absurd hdd hel.2⟩
  · exact hk before e mid hkept

theorem Canonical.append_plain {rooted : Bool} {kept : List (List Char)}
    (hk : Canonical rooted kept) :
    ∀ els : List (List Char), (∀ el ∈ els, PlainElement el) → Canonical rooted (kept ++ els) := by
  intro els
  induction els using List.reverseRecOn with
  | nil => intro _; simpa using hk
  | append_singleton els el ih =>
    intro h
    rw [← List.append_assoc]
    exact (ih fun e he => h e (List.mem_append_left _ he)).snoc_plain
      (h el (List.mem_append_right _ (List.mem_singleton_self _)))

theorem Canonical.dropLast {rooted : Bool} {kept : List (List Char)}
    (hk : Canonical rooted kept) : Canonical rooted kept.dropLast := by
  rcases eq_nil_or_snoc kept with rfl | ⟨init, last, rfl⟩
  · simpa using hk
  · intro before e after h
    rw [List.dropLast_concat] at h
    exact hk before e (after ++ [last]) (by rw [h]; simp)

theorem Canonical.step {rooted : Bool} {kept : List (List Char)} {el : List Char}
    (hk : Canonical rooted kept) (hel : '/' ∉ el) :
    Canonical rooted (Microshift.cleanStep rooted kept el) := by
  unfold Microshift.cleanStep
  split
  · exact hk
  · rename_i h1
    have hne : el ≠ [] := fun h => h1 (Or.inl h)
    have hnd : el ≠ ['.'] := fun h => h1 (Or.inr h)
    split
    · rename_i hdd
      subst hdd
      rcases eq_nil_or_snoc kept with rfl | ⟨init, last, rfl⟩
      · cases rooted with
        | true => simpa using hk
        | false =>
          simp only [List.getLast?_nil, Bool.false_eq_true, if_false, List.nil_append]
          intro before e after h
          have hsnoc : before ++ e :: after = ([] : List (List Char)) ++ [['.', '.']] := by
            simpa using h.symm
          rcases snoc_decompose hsnoc with ⟨-, hb, rfl⟩ | ⟨mid, -, hkept⟩
          · subst hb
            exact ⟨⟨by simp, by simp, by simp⟩, fun _ => ⟨rfl, by simp⟩⟩
          · simp at hkept
      · simp only [List.getLast?_concat]
        split
        · rename_i hlast
          subst hlast
          obtain ⟨-, hall⟩ := hk init ['.', '.'] [] rfl
          obtain ⟨hr, hinit⟩ := hall rfl
          intro before e after h
          rcases snoc_decompose h.symm with ⟨-, hb, rfl⟩ | ⟨mid, -, hkept⟩
          · subst hb
            refine ⟨⟨by simp, by simp, by simp⟩, fun _ => ⟨hr, ?_⟩⟩
            intro y hy
            rcases List.mem_append.1 hy with hy | hy
            · exact hinit y hy
            · simpa using hy
          · exact hk before e mid hkept
        · exact hk.dropLast
    · rename_i hdd
      exact hk.snoc_plain ⟨⟨hne, hnd, hel⟩, hdd⟩

theorem Canonical.foldl_step {rooted : Bool} (els : List (List Char)) (hels : ∀ el ∈ els, '/' ∉ el) :
    ∀ kept, Canonical rooted kept → Canonical rooted (els.foldl (Microshift.cleanStep rooted) kept) := by
  induction els with
  | nil => intro kept hk; simpa using hk
  | cons el els ih =>
    intro kept hk
    rw [List.foldl_cons]
    exact ih (fun e he => hels e (List.mem_cons_of_mem _ he)) _
      (hk.step (hels el (List.mem_cons_self _ _)))

theorem Canonical.free {rooted : Bool} {kept : List (List Char)} (hk : Canonical rooted kept) :
    ∀ el ∈ kept, '/' ∉ el := by
  intro el hel
  obtain ⟨before, after, rfl⟩ := List.append_of_mem hel
  exact (hk before el after rfl).1.2.2

theorem Canonical.refold {rooted : Bool} :
    ∀ (later kept : List (List Char)), Canonical rooted (kept ++ later) →
      later.foldl (Microshift.cleanStep rooted) kept = kept ++ later := by
  intro later
  induction later with
  | nil => intro kept _; simp
  | cons el later ih =>
    intro kept hk
    obtain ⟨⟨hne, hnd, hfree⟩, hdd⟩ := hk kept el later rfl
    have hstep : Microshift.cleanStep rooted kept el = kept ++ [el] := by
      by_cases h : el = ['.', '.']
      · obtain ⟨hr, hall⟩ := hdd h
        subst h
        rcases eq_nil_or_snoc kept with rfl | ⟨init, last, rfl⟩
        · simp [Microshift.cleanStep, hr]
        · have hlast : last = ['.', '.'] := hall last (by simp)
          simp [Microshift.cleanStep, hlast]
      · exact cleanStep_plain rooted kept el ⟨⟨hne, hnd, hfree⟩, h⟩
    rw [List.foldl_cons, hstep, ih (kept ++ [el]) (by simpa using hk)]
    simp

theorem cleanChars_eq_render (p : List Char) (hp : p ≠ []) :
    cleanChars p = render (decide (p.head? = some '/'))
      ((splitSlash p).foldl (cleanStep (decide (p.head? = some '/'))) []) := by
  simp only [cleanChars, hp, if_false, render]
  by_cases h : p.head? = some '/' <;> simp [h]

theorem render_cons_unrooted (el : List Char) (els : List (List Char)) :
    render false (el :: els) = el ++ slashed els := by
  simp [render, slashed_cons]

theorem render_ne_nil {rooted : Bool} {kept : List (List Char)} (hk : Canonical rooted kept) :
    render rooted kept ≠ [] := by
  cases kept with
  | nil => cases rooted <;> simp [render]
  | cons el els =>
    cases rooted with
    | true => simp [render, slashed_cons]
    | false =>
      rw [render_cons_unrooted]
      have := (hk [] el els rfl).1.1
      simp [this]

theorem render_head {rooted : Bool} {kept : List (List Char)} (hk : Canonical rooted kept) :
    decide ((render rooted kept).head? = some '/') = rooted := by
  cases kept with
  | nil => cases rooted <;> simp [render]
  | cons el els =>
    cases rooted with
    | true => simp [render, slashed_cons]
    | false =>
      rw [render_cons_unrooted]
      obtain ⟨hne, -, hfree⟩ := (hk [] el els rfl).1
      cases el with
      | nil => exact absurd rfl hne
      | cons c cs =>
        have hc : c ≠ '/' := fun h => hfree (by simp [h])
        simp [hc]

theorem refold_render {rooted : Bool} {kept : List (List Char)} (hk : Canonical rooted kept) :
    (splitSlash (render rooted kept)).foldl (cleanStep rooted) [] = kept := by
  cases kept with
  | nil => cases rooted <;> simp [render, splitSlash, cleanStep]
  | cons el els =>
    have hre := Canonical.refold (el :: els) [] (by simpa using hk)
    cases rooted with
    | true =>
      have h1 : render true (el :: els) = slashed (el :: els) := by simp [render]
      rw [h1, splitSlash_slashed _ hk.free, List.foldl_cons, cleanStep_empty]
      simpa using hre
    | false =>
      rw [render_cons_unrooted]
      have hfree := hk.free
      rw [splitSlash_free_append el _ (hfree el (List.mem_cons_self _ _)) [] els
        (splitSlash_slashed els fun e he => hfree e (List.mem_cons_of_mem _ he))]
      simpa using hre

theorem joinChars_render {rooted : Bool} {kept : List (List Char)} (hk : Canonical rooted kept)
    (g : List Char) :
    joinChars (render rooted kept) g =
      render rooted ((splitSlash g).foldl (cleanStep rooted) kept) := by
  have hne := render_ne_nil hk
  have hne' : render rooted kept ++ '/' :: g ≠ [] := by simp
  have hhead : (render rooted kept ++ '/' :: g).head? = (render rooted kept).head? := by
    cases hr : render rooted kept with
    | nil => exact absurd hr hne
    | cons c cs => simp
  simp only [joinChars, hne, ne_eq, not_false_eq_true, if_true]
  rw [cleanChars_eq_render _ hne', hhead, render_head hk, splitSlash_append_slash,
    List.foldl_append, refold_render hk]

theorem dirKept_canonical (d : List Char) : Canonical (dirRooted d) (dirKept d) := by
  unfold dirKept
  split
  · exact Canonical.nil _
  · exact Canonical.foldl_step _ (splitSlash_free d) [] (Canonical.nil _)

theorem joinChars_dir (d g : List Char) (hg : g.head? = some '/') :
    joinChars d g = render (dirRooted d) ((splitSlash g).foldl (cleanStep (dirRooted d))
      (dirKept d)) := by
  have hgne : g ≠ [] := by
    intro h; rw [h] at hg; simp at hg
  by_cases hd : d = []
  · subst hd
    simp only [joinChars, ne_eq, not_true_eq_false, if_false, hgne, not_false_eq_true, if_true]
    rw [cleanChars_eq_render g hgne]
    simp [hg, dirRooted, dirKept]
  · have hne' : d ++ '/' :: g ≠ [] := by simp
    have hhead : (d ++ '/' :: g).head? = d.head? := by
      cases d with
      | nil => exact absurd rfl hd
      | cons c cs => simp
    simp only [joinChars, hd, ne_eq, not_false_eq_true, if_true]
    rw [cleanChars_eq_render _ hne', hhead, splitSlash_append_slash, List.foldl_append]
    simp [dirRooted, dirKept, hd]

theorem GoodSub.head {sub : String} (h : GoodSub sub) : sub.data.head? = some '/' := by
  obtain ⟨h1, h2, -⟩ := h
  rw [h1]
  cases hs : subElements sub with
  | nil => exact absurd hs h2
  | cons el els => simp [slashed_cons]

theorem GoodSub.split {sub : String} (h : GoodSub sub) :
    splitSlash sub.data = [] :: subElements sub := by
  obtain ⟨h1, -, h3⟩ := h
  conv_lhs => rw [h1]
  exact splitSlash_slashed _ fun el hel => (h3 el hel).1.2.2

theorem filepathJoin_sub (dataDir sub : String) (h : GoodSub sub) :
    (filepathJoin dataDir sub).data =
      render (dirRooted dataDir.data) (dirKept dataDir.data ++ subElements sub) := by
  show joinChars dataDir.data sub.data = _
  rw [joinChars_dir _ _ h.head, h.split, List.foldl_cons, cleanStep_empty,
    foldl_cleanStep_plain _ _ _ h.2.2]

theorem filepathJoin_sub_name (dataDir sub name : String) (h : GoodSub sub)
    (hn : PlainElement name.data) :
    (filepathJoin (filepathJoin dataDir sub) name).data =
      render (dirRooted dataDir.data)
        (dirKept dataDir.data ++ (subElements sub ++ [name.data])) := by
  show joinChars (filepathJoin dataDir sub).data name.data = _
  have hk : Canonical (dirRooted dataDir.data) (dirKept dataDir.data ++ subElements sub) :=
    (dirKept_canonical dataDir.data).append_plain _ h.2.2
  have hsplit : splitSlash name.data = [name.data] := by
    have := splitSlash_free_append name.data [] hn.1.2.2 [] [] (by simp [splitSlash])
    simpa using this
  rw [filepathJoin_sub dataDir sub h, joinChars_render hk, hsplit, List.foldl_cons,
    List.foldl_nil, cleanStep_plain _ _ _ hn, List.append_assoc]

theorem render_append_injective {rooted : Bool} {kept a b : List (List Char)}
    (hk : Canonical rooted kept) (ha : ∀ el ∈ a, PlainElement el)
    (hb : ∀ el ∈ b, PlainElement el) (hane : a ≠ []) (hbne : b ≠ [])
    (h : render rooted (kept ++ a) = render rooted (kept ++ b)) : a = b := by
  have hfa := (hk.append_plain a ha).free
  have hfb := (hk.append_plain b hb).free
  have hnea : kept ++ a ≠ [] := by simp [hane]
  have hneb : kept ++ b ≠ [] := by simp [hbne]
  have hs : slashed (kept ++ a) = slashed (kept ++ b) := by
    cases rooted with
    | true => simpa [render, hnea, hneb, hane, hbne] using h
    | false =>
      have h1 : (slashed (kept ++ a)).tail = (slashed (kept ++ b)).tail := by
        simpa [render, hnea, hneb, hane, hbne] using h
      obtain ⟨ea, la, hea⟩ := List.exists_cons_of_ne_nil hnea
      obtain ⟨eb, lb, heb⟩ := List.exists_cons_of_ne_nil hneb
      rw [hea, heb, slashed_cons, slashed_cons] at h1 ⊢
      simp only [List.tail_cons] at h1
      rw [h1]
  exact List.append_cancel_left (slashed_injective _ _ hfa hfb hs)

theorem filepathJoin_sub_eq (dataDir sub : String) (els : List String) (h : GoodSub sub)
    (hels : els.map String.data = subElements sub) :
    filepathJoin dataDir sub = targetPath dataDir els := by
  apply String.ext
  rw [filepathJoin_sub dataDir sub h, targetPath, hels]

theorem filepathJoin_sub_name_eq (dataDir sub name : String) (els : List String)
    (h : GoodSub sub) (hn : PlainElement name.data)
    (hels : els.map String.data = subElements sub ++ [name.data]) :
    filepathJoin (filepathJoin dataDir sub) name = targetPath dataDir els := by
  apply String.ext
  rw [filepathJoin_sub_name dataDir sub name h hn, targetPath, hels]

theorem allTargets_eq (dataDir : String) :
    allTargets dataDir = targetElements.map (targetPath dataDir) := by
  simp only [allTargets, targetElements, List.map_cons, List.map_nil, List.cons.injEq, and_true]
  repeat' apply And.intro
  all_goals
    first
    | exact filepathJoin_sub_name_eq dataDir _ _ _ (by decide) (by decide) (by decide)
    | exact filepathJoin_sub_eq dataDir _ _ (by decide) (by decide)

theorem targetElements_plain :
    ∀ els ∈ targetElements, els ≠ [] ∧ ∀ el ∈ els, PlainElement el.data := by
  decide

theorem targetElements_nodup : targetElements.Nodup := by
  decide

theorem allTargets_nodup (dataDir : String) : (allTargets dataDir).Nodup := by
  rw [allTargets_eq]
  refine List.Nodup.map_on ?_ targetElements_nodup
  intro a ha b hb hab
  have hk := dirKept_canonical dataDir.data
  obtain ⟨hane, hap⟩ := targetElements_plain a ha
  obtain ⟨hbne, hbp⟩ := targetElements_plain b hb
  have hdata : render (dirRooted dataDir.data) (dirKept dataDir.data ++ a.map String.data) =
      render (dirRooted dataDir.data) (dirKept dataDir.data ++ b.map String.data) :=
    congrArg String.data hab
  have hmap := render_append_injective hk
    (by intro el hel; obtain ⟨e, he, rfl⟩ := List.mem_map.1 hel; exact hap e he)
    (by intro el hel; obtain ⟨e, he, rfl⟩ := List.mem_map.1 hel; exact hbp e he)
    (by simpa using hane) (by simpa using hbne) hdata
  exact List.map_injective_iff.2 (fun s t hst => String.ext hst) hmap

theorem flatMap_take {α β : Type} (f : α → List β) (l : List α) (k : Nat) :
    ∃ n, (l.take k).flatMap f = (l.flatMap f).take n := by
  induction l generalizing k with
  | nil => exact ⟨0, by simp⟩
  | cons a l ih =>
    cases k with
    | zero => exact ⟨0, by simp⟩
    | succ k =>
      obtain ⟨n, hn⟩ := ih k
      refine ⟨(f a).length + n, ?_⟩
      simp only [List.take_succ_cons, List.flatMap_cons, hn]
      rw [List.take_append]

theorem bootstrapSequence_targets (x : Ext W Net IP Err) (cfg : MicroshiftConfig)
    (hjoin : x.join = filepathJoin) :
    (∃ n, (bootstrapSequence x cfg).flatMap Call.targets = (allTargets cfg.DataDir).take n) ∧
    ((bootstrapSequence x cfg).length = 19 →
      (bootstrapSequence x cfg).flatMap Call.targets = allTargets cfg.DataDir) := by
  rcases hparse : x.parseCIDR cfg.Cluster.ServiceCIDR with err | svcNet
  · exact ⟨⟨0, by simp [bootstrapSequence, hparse, Call.targets]⟩,
      by simp [bootstrapSequence, hparse]⟩
  · rcases hip : x.serviceIPRange svcNet with err | ip
    · exact ⟨⟨0, by simp [bootstrapSequence, hparse, hip, Call.targets]⟩,
        by simp [bootstrapSequence, hparse, hip]⟩
    · have hall : (bootstrapSequence x cfg).flatMap Call.targets = allTargets cfg.DataDir := by
        simp [bootstrapSequence, hparse, hip, certCalls, kubeconfigCalls, Call.targets, hjoin,
          allTargets]
      exact ⟨⟨29, by rw [hall]; exact (List.take_of_length_le (by simp [allTargets])).symm⟩,
        fun _ => hall⟩

theorem targetsMade_eq (x : Ext W Net IP Err) (cfg : MicroshiftConfig) (s : St W Net Err) :
    targetsMade x cfg s =
      ((bootstrapSequence x cfg).take (callsMade x cfg s).length).flatMap Call.targets := by
  rw [← (callsMade_stops x cfg s).calls_eq_take]
  simp [targetsMade, List.flatMap, Function.comp_def]

/-! ## Role validation -/

theorem StringInList_iff (s : String) (list : List String) :
    StringInList s list = true ↔ s ∈ list := by
  induction list with
  | nil => simp [StringInList]
  | cons x list ih =>
    unfold StringInList
    by_cases h : x = s
    · simp [h]
    · have h' : ¬ s = x := fun e => h e.symm
      simp [h, h', ih]

theorem validateRoles_eq_none_iff (valid roles : List String) :
    validateRoles valid roles = none ↔ ∀ role ∈ roles, role ∈ valid := by
  induction roles with
  | nil => simp [validateRoles]
  | cons role roles ih =>
    unfold validateRoles
    by_cases h : StringInList role valid = true
    · have hm := (StringInList_iff role valid).1 h
      simp [h, ih, hm]
    · have hm : role ∉ valid := fun hm => h ((StringInList_iff role valid).2 hm)
      simp [h, hm]

theorem validateRoles_first_invalid (valid roles : List String)
    (h : ¬ ∀ role ∈ roles, role ∈ valid) :
    ∃ before bad after, roles = before ++ bad :: after ∧
      (∀ role ∈ before, role ∈ valid) ∧ bad ∉ valid ∧
      validateRoles valid roles = some (roleError bad) := by
  induction roles with
  | nil => simp at h
  | cons role roles ih =>
    by_cases hr : role ∈ valid
    · have h' : ¬ ∀ r ∈ roles, r ∈ valid := by
        intro hall
        apply h
        intro r hrm
        rcases List.mem_cons.1 hrm with rfl | hrm
        · exact hr
        · exact hall r hrm
      obtain ⟨before, bad, after, heq, hbefore, hbad, hres⟩ := ih h'
      refine ⟨role :: before, bad, after, by rw [heq]; rfl, ?_, hbad, ?_⟩
      · intro r hrm
        rcases List.mem_cons.1 hrm with rfl | hrm
        · exact hr
        · exact hbefore r hrm
      · unfold validateRoles
        simp [(StringInList_iff role valid).2 hr, hres]
    · refine ⟨[], role, roles, rfl, by simp, hr, ?_⟩
      have hs : StringInList role valid = false := by
        cases hb : StringInList role valid with
        | false => rfl
        | true => exact absurd ((StringInList_iff role valid).1 hb) hr
      unfold validateRoles
      simp [hs]

/-- While the array of `validRoles` still holds `controlplane` and `node` after the reads,
`ReadAndValidate` does what its error text says: it returns `nil` exactly when every role
is one of the two, and otherwise the error that names the first role that is not. -/
theorem ReadAndValidate_while_validRoles_intact (env : ConfigEnv) (flags : FlagSet)
    (c c1 c2 c3 : MicroshiftConfig) (p p1 p2 : Package)
    (hfile : ReadFromConfigFile env c p = (none, c1, p1))
    (henv : ReadFromEnv env c1 p1 = (none, c2, p2))
    (hcmd : ReadFromCmdLine env flags c2 = (none, c3))
    (hvalid : p2.validRoles = ["controlplane", "node"]) :
    ((ReadAndValidate env flags c p).1 = none ↔
      ∀ role ∈ c3.Roles.elems p2, role = "controlplane" ∨ role = "node") ∧
    ((¬ ∀ role ∈ c3.Roles.elems p2, role = "controlplane" ∨ role = "node") →
      ∃ before bad after, c3.Roles.elems p2 = before ++ bad :: after ∧
        (∀ role ∈ before, role = "controlplane" ∨ role = "node") ∧
        ¬ (bad = "controlplane" ∨ bad = "node") ∧
        (ReadAndValidate env flags c p).1 = some (roleError bad)) := by
  have hres : ReadAndValidate env flags c p =
      (validateRoles p2.validRoles (c3.Roles.elems p2), c3, p2) := by
    simp only [ReadAndValidate, hfile, henv, hcmd]
  have hmem : ∀ role, role ∈ p2.validRoles ↔ role = "controlplane" ∨ role = "node" := by
    intro role; simp [hvalid]
  rw [hres]
  constructor
  · simp only [validateRoles_eq_none_iff, hmem]
  · intro h
    simp only [← hmem] at h ⊢
    exact validateRoles_first_invalid p2.validRoles _ h

/-! ## The service IP -/

theorem parseBounded_le {bound : Nat} {cs : List Char} {n : Nat}
    (h : parseBounded bound cs = some n) : n ≤ bound := by
  unfold parseBounded at h
  split at h
  · split at h
    · cases h; assumption
    · cases h
  · cases h

theorem parseOctet_le {cs : List Char} {n : Nat} (h : parseOctet cs = some n) : n ≤ 255 := by
  unfold parseOctet at h
  split at h
  · cases h
  · exact parseBounded_le h

theorem parseIPv4_lt {cs : List Char} {a : Nat} (h : parseIPv4 cs = some a) : a < 2 ^ 32 := by
  unfold parseIPv4 at h
  split at h
  · rename_i o1 o2 o3 o4 hmap
    cases h
    have hmem : ∀ o ∈ (splitChar '.' cs).map parseOctet, ∀ n, o = some n → n ≤ 255 := by
      intro o ho n hn
      obtain ⟨fld, -, hf⟩ := List.mem_map.1 ho
      rw [hn] at hf
      exact parseOctet_le hf
    rw [hmap] at hmem
    have h1 := hmem (some o1) (by simp) o1 rfl
    have h2 := hmem (some o2) (by simp) o2 rfl
    have h3 := hmem (some o3) (by simp) o3 rfl
    have h4 := hmem (some o4) (by simp) o4 rfl
    omega
  · cases h

theorem networkAddress_dvd (a n : Nat) : 2 ^ (32 - n) ∣ networkAddress a n := by
  unfold networkAddress
  exact Nat.dvd_sub_mod a

theorem networkAddress_le (a n : Nat) : networkAddress a n ≤ a := by
  unfold networkAddress
  exact Nat.sub_le _ _

theorem ParseCIDRv4_isNetwork {s : String} {svcNet : IPNet} (h : ParseCIDRv4 s = .ok svcNet) :
    svcNet.IsNetwork := by
  unfold ParseCIDRv4 at h
  split at h
  · split at h
    · rename_i a n ha hn
      cases h
      exact ⟨Or.inl rfl, parseBounded_le hn,
        Nat.lt_of_le_of_lt (networkAddress_le a n) (parseIPv4_lt ha), networkAddress_dvd a n⟩
    · cases h
  · cases h

theorem two_pow_lt_eight (h : Nat) : 2 ^ h < 8 ↔ h < 3 := by
  constructor
  · intro hh
    by_contra hge
    have : 2 ^ 3 ≤ 2 ^ h := Nat.pow_le_pow_right (by norm_num) (by omega)
    omega
  · intro hh
    interval_cases h <;> norm_num

theorem min_cap_lt_eight (a : Nat) : min a (2 ^ 16) < 8 ↔ a < 8 := by
  rcases Nat.le_total a (2 ^ 16) with h | h
  · rw [Nat.min_eq_left h]
  · rw [Nat.min_eq_right h]
    constructor
    · intro h8; norm_num at h8
    · intro h8
      have : (2 : Nat) ^ 16 = 65536 := by norm_num
      omega

theorem size_lt_eight_iff (n : IPNet) (hn : n.IsNetwork) :
    min (RangeSize n) (2 ^ 16) < 8 ↔ ¬ (2 ≤ n.ones ∧ n.ones + 3 ≤ n.bits) := by
  obtain ⟨hb, ho, -, -⟩ := hn
  rw [min_cap_lt_eight]
  unfold RangeSize
  rcases hb with hb | hb
  · by_cases h31 : 31 ≤ n.bits - n.ones
    · have h31' : 31 ≤ 32 - n.ones := by rw [hb] at h31; exact h31
      simp only [hb, h31', and_self, true_or, if_true]
      constructor
      · intro _ hc; omega
      · intro _; norm_num
    · have h31' : ¬ 31 ≤ 32 - n.ones := by rw [hb] at h31; exact h31
      simp only [hb, h31', and_false, false_or, if_false, show ¬ (32 = 128) by norm_num,
        false_and]
      rw [two_pow_lt_eight]
      omega
  · by_cases h127 : 127 ≤ n.bits - n.ones
    · have h127' : 127 ≤ 128 - n.ones := by rw [hb] at h127; exact h127
      simp only [hb, h127', and_self, or_true, if_true]
      constructor
      · intro _ hc; omega
      · intro _; norm_num
    · have h127' : ¬ 127 ≤ 128 - n.ones := by rw [hb] at h127; exact h127
      by_cases h63 : 63 ≤ 128 - n.ones
      · simp only [hb, h127', and_false, or_false, show ¬ (128 = 32) by norm_num, false_and,
          if_false, h63, and_self, if_true]
        constructor
        · intro h8; norm_num at h8
        · intro hc; exfalso; apply hc; omega
      · simp only [hb, h127', and_false, or_false, show ¬ (128 = 32) by norm_num, false_and,
          if_false, h63]
        rw [two_pow_lt_eight]
        omega

theorem contains_succ (n : IPNet) (hn : n.IsNetwork) (hhost : n.ones + 1 ≤ n.bits) :
    n.Contains (n.IP + 1) := by
  obtain ⟨-, ho, hlt, q, hq⟩ := hn
  have h2 : 2 ≤ 2 ^ (n.bits - n.ones) := by
    have : 2 ^ 1 ≤ 2 ^ (n.bits - n.ones) := Nat.pow_le_pow_right (by norm_num) (by omega)
    simpa using this
  have hpos : 0 < 2 ^ (n.bits - n.ones) := by omega
  have hpow : 2 ^ (n.bits - n.ones) * 2 ^ n.ones = 2 ^ n.bits := by
    rw [← Nat.pow_add]; congr 1; omega
  constructor
  · have hqlt : q < 2 ^ n.ones := by
      by_contra hge
      have hge' : 2 ^ n.ones ≤ q := Nat.le_of_not_lt hge
      have : 2 ^ (n.bits - n.ones) * 2 ^ n.ones ≤ 2 ^ (n.bits - n.ones) * q :=
        Nat.mul_le_mul_left _ hge'
      omega
    have hstep : 2 ^ (n.bits - n.ones) * (q + 1) ≤ 2 ^ (n.bits - n.ones) * 2 ^ n.ones :=
      Nat.mul_le_mul_left _ hqlt
    rw [Nat.mul_add, Nat.mul_one] at hstep
    omega
  · rw [hq, Nat.mul_div_cancel_left _ hpos, Nat.add_comm, Nat.add_mul_div_left _ _ hpos,
      Nat.div_eq_of_lt (by omega)]
    simp

theorem sample_service_ip :
    DeriveAPIServerServiceIP ParseCIDRv4 sampleConfig.Cluster.ServiceCIDR = .ok 170590209 ∧
      ipString 170590209 = "10.43.0.1" := ⟨rfl, by decide⟩

/-! ## The claims -/

/-- C1, the claim refuted: `10.43.0.0/30` and `10.43.0.0/32` are well-formed service CIDRs,
and the derivation of the service IP fails on both: `ctrl.ServiceIPRange` refuses a range
of fewer than 8 addresses. -/
theorem derive_service_ip_counterexample :
    ((∃ svcNet, ParseCIDRv4 "10.43.0.0/30" = .ok svcNet) ∧
      ¬ ∃ ip, DeriveAPIServerServiceIP ParseCIDRv4 "10.43.0.0/30" = .ok ip) ∧
    ((∃ svcNet, ParseCIDRv4 "10.43.0.0/32" = .ok svcNet) ∧
      ¬ ∃ ip, DeriveAPIServerServiceIP ParseCIDRv4 "10.43.0.0/32" = .ok ip) := by
  refine ⟨⟨⟨{ IP := 170590208, ones := 30, bits := 32 }, rfl⟩, ?_⟩,
    ⟨⟨{ IP := 170590208, ones := 32, bits := 32 }, rfl⟩, ?_⟩⟩
  · rintro ⟨ip, h⟩
    have hfail : DeriveAPIServerServiceIP ParseCIDRv4 "10.43.0.0/30" =
        .error "the service cluster IP range must be at least 8 IP addresses" := rfl
    rw [hfail] at h
    cases h
  · rintro ⟨ip, h⟩
    have hfail : DeriveAPIServerServiceIP ParseCIDRv4 "10.43.0.0/32" =
        .error "the service cluster IP range must be at least 8 IP addresses" := rfl
    rw [hfail] at h
    cases h

/-- C1 as amended: whatever network `net.ParseCIDR` returns for the service CIDR, IPv4 or
IPv6, the derivation (`net.ParseCIDR`, then `ctrl.ServiceIPRange`) succeeds exactly when
the mask has at least 2 bits and leaves at least 3 host bits (an IPv4 mask of 2 to 29 bits,
an IPv6 mask of 2 to 125 bits); it then returns the network address plus one, an address of
the range.  For every other mask `ctrl.ServiceIPRange` returns its error about a range of
fewer than 8 addresses.  For `10.43.0.0/16` the derived address is `10.43.0.1`. -/
theorem derive_service_ip (parseCIDR : String → Except String IPNet) (s : String)
    (svcNet : IPNet) (hparse : parseCIDR s = .ok svcNet) (hnet : svcNet.IsNetwork) :
    ((2 ≤ svcNet.ones ∧ svcNet.ones + 3 ≤ svcNet.bits) →
      DeriveAPIServerServiceIP parseCIDR s = .ok (svcNet.IP + 1) ∧
        svcNet.Contains (svcNet.IP + 1)) ∧
    (¬ (2 ≤ svcNet.ones ∧ svcNet.ones + 3 ≤ svcNet.bits) →
      DeriveAPIServerServiceIP parseCIDR s =
        .error "the service cluster IP range must be at least 8 IP addresses") ∧
    (DeriveAPIServerServiceIP ParseCIDRv4 "10.43.0.0/16" = .ok 170590209 ∧
      ipString 170590209 = "10.43.0.1") := by
  refine ⟨?_, ?_, rfl, by decide⟩
  · intro hmask
    have hsize : ¬ min (RangeSize svcNet) (2 ^ 16) < 8 := by
      rw [size_lt_eight_iff svcNet hnet]
      exact fun h => h hmask
    have hc : svcNet.Contains (svcNet.IP + 1) := contains_succ svcNet hnet (by omega)
    refine ⟨?_, hc⟩
    simp only [DeriveAPIServerServiceIP, hparse, ServiceIPRange, hsize, if_false, GetIndexedIP,
      hc, if_true]
  · intro hmask
    have hsize : min (RangeSize svcNet) (2 ^ 16) < 8 :=
      (size_lt_eight_iff svcNet hnet).2 hmask
    simp only [DeriveAPIServerServiceIP, hparse, ServiceIPRange, hsize, if_true]

/-- A witness for the amended C1: the default service CIDR of `NewMicroshiftConfig`. -/
theorem derive_service_ip_witness :
    DeriveAPIServerServiceIP ParseCIDRv4 "10.43.0.0/16" = .ok (170590208 + 1) ∧
      IPNet.Contains { IP := 170590208, ones := 16, bits := 32 } (170590208 + 1) :=
  (derive_service_ip ParseCIDRv4 "10.43.0.0/16" { IP := 170590208, ones := 16, bits := 32 }
    rfl (by decide)).1 (by decide)

/-- C2: in every run of `initCerts`, the request for the API-server serving certificate (the
`util.GenCerts` call with common name `kube-apiserver`) is stored under
`certs/kube-apiserver/secrets/service-network-serving-certkey` of the data directory and its
SAN list contains `cfg.NodeIP`, `cfg.NodeName`, `127.0.0.1` and the string form of the
service IP derived from `cfg.Cluster.ServiceCIDR`; and a run that returns `nil` has made
that request. -/
theorem apiserver_serving_cert_sans (x : Ext W Net IP Err) (cfg : MicroshiftConfig)
    (s : St W Net Err) :
    (∀ entry ∈ certCallsMade x cfg s, ∀ dir crt key sans,
      entry.1 = .genCerts "kube-apiserver" dir crt key sans →
        dir = x.join cfg.DataDir
          "/certs/kube-apiserver/secrets/service-network-serving-certkey" ∧
        cfg.NodeIP ∈ sans ∧ cfg.NodeName ∈ sans ∧ "127.0.0.1" ∈ sans ∧
        ∃ svcNet ip, x.parseCIDR cfg.Cluster.ServiceCIDR = .ok svcNet ∧
          x.serviceIPRange svcNet = .ok ip ∧ x.ipString ip ∈ sans) ∧
    ((initCerts x cfg s).1 = none →
      ∃ sans, (Call.genCerts "kube-apiserver"
        (x.join cfg.DataDir "/certs/kube-apiserver/secrets/service-network-serving-certkey")
        "tls.crt" "tls.key" sans, none) ∈ certCallsMade x cfg s) := by
  have hstop := certCallsMade_stops x cfg s
  constructor
  · intro entry hentry dir crt key sans heq
    have hmem := hstop.mem hentry
    rw [heq] at hmem
    rcases certSequence_cases x cfg with ⟨svcNet, ip, hparse, hip, hseq⟩ | hkind
    · rw [hseq] at hmem
      simp [certCalls] at hmem
      obtain ⟨rfl, _, _, rfl⟩ := hmem
      exact ⟨rfl, by simp, by simp, by simp, svcNet, ip, hparse, hip, by simp⟩
    · rcases hkind _ hmem with h | h <;> cases h
  · intro hnil
    have hall := hstop.all_of_nil hnil
    rcases certSequence_cases x cfg with ⟨svcNet, ip, hparse, hip, hseq⟩ | hkind
    · rw [hall, hseq]
      exact ⟨["kube-apiserver", cfg.NodeIP, cfg.NodeName, "127.0.0.1", "kubernetes.default.svc",
        "kubernetes.default", "kubernetes", "localhost", x.ipString ip], by simp [certCalls]⟩
    · exfalso
      rcases hparse : x.parseCIDR cfg.Cluster.ServiceCIDR with err | svcNet
      · simp [initCerts, hparse] at hnil
      · rcases hip : x.serviceIPRange svcNet with err | ip
        · simp [initCerts, hparse, hip] at hnil
        · have := hkind (.storeRootCA "https://kubernetes.svc"
            (x.join cfg.DataDir "/certs/ca-bundle") "ca-bundle.crt" "ca-bundle.key"
            ["https://kubernetes.svc"]) (by simp [certSequence, hparse, hip, certCalls])
          rcases this with h | h <;> cases h

/-- A witness for C2: on the sample host the API-server serving certificate is requested
with the node IP, the node name, the loopback address and `10.43.0.1` among its SANs. -/
theorem apiserver_serving_cert_sans_witness :
    ∃ sans, (Call.genCerts "kube-apiserver"
        "/var/lib/microshift/certs/kube-apiserver/secrets/service-network-serving-certkey"
        "tls.crt" "tls.key" sans, none) ∈
        certCallsMade (diskExt fun _ => false) sampleConfig emptyState ∧
      "192.168.1.10" ∈ sans ∧ "node1" ∈ sans ∧ "127.0.0.1" ∈ sans ∧ "10.43.0.1" ∈ sans := by
  have h := apiserver_serving_cert_sans (diskExt fun _ => false) sampleConfig emptyState
  obtain ⟨sans, hmem⟩ := h.2 (by decide)
  obtain ⟨-, h1, h2, h3, svcNet, ip, hp, hi, h4⟩ := h.1 _ hmem _ _ _ _ rfl
  refine ⟨sans, hmem, h1, h2, h3, ?_⟩
  have hd : DeriveAPIServerServiceIP ParseCIDRv4 sampleConfig.Cluster.ServiceCIDR = .ok ip := by
    have hp' : ParseCIDRv4 sampleConfig.Cluster.ServiceCIDR = .ok svcNet := hp
    have hi' : ServiceIPRange svcNet = .ok ip := hi
    simp only [DeriveAPIServerServiceIP, hp', hi']
  rw [sample_service_ip.1] at hd
  cases hd
  have h4' : ipString 170590209 ∈ sans := h4
  rwa [sample_service_ip.2] at h4'

/-- C3: a run of `initAll` goes through the bootstrap sequence and stops at the first
failure.  Whenever a call returns an error `e`, every call before it succeeded, `initAll`
returns exactly `e` and no later call is made; every call of the sequence is reached when
the calls before it succeed; and a service CIDR that `net.ParseCIDR` rejects makes
`initAll` return that error with the parse as its only call and the world untouched. -/
theorem initAll_aborts_on_first_failure (x : Ext W Net IP Err) (cfg : MicroshiftConfig)
    (s : St W Net Err) :
    StopsAtFirstFailure (bootstrapSequence x cfg) (callsMade x cfg s) (initAll x cfg s).1 ∧
    (∀ i c e, (callsMade x cfg s)[i]? = some (c, some e) →
      (initAll x cfg s).1 = some e ∧ (callsMade x cfg s).length = i + 1 ∧
      (bootstrapSequence x cfg)[i]? = some c ∧
      ∀ j < i, ∀ entry, (callsMade x cfg s)[j]? = some entry → entry.2 = none) ∧
    (∀ i, ∀ hi : i < (bootstrapSequence x cfg).length,
      (∀ j < i, ∀ entry, (callsMade x cfg s)[j]? = some entry → entry.2 = none) →
      ∃ res, (callsMade x cfg s)[i]? = some ((bootstrapSequence x cfg)[i], res)) ∧
    (∀ e, x.parseCIDR cfg.Cluster.ServiceCIDR = .error e →
      (initAll x cfg s).1 = some e ∧
      callsMade x cfg s = [(.parseCIDR cfg.Cluster.ServiceCIDR, some e)] ∧
      (initAll x cfg s).2.world = s.world) := by
  have hstop := callsMade_stops x cfg s
  refine ⟨hstop, ?_, ?_, ?_⟩
  · intro i c e hi
    obtain ⟨hr, hlen⟩ := hstop.failure_is_last hi
    exact ⟨hr, hlen, hstop.call_at hi, fun j hj entry hentry =>
      hstop.earlier_succeeded hi hj hentry⟩
  · intro i hi hprev
    exact hstop.next_is_made hi hprev
  · intro e he
    simp [callsMade, initAll, initCerts, he, record_log, St.record]

/-- A witness for C3: with a disk that fails on key pairs the bootstrap stops at its eighth
call and returns that error; with a malformed service CIDR it stops at the parse. -/
theorem initAll_aborts_on_first_failure_witness :
    ((initAll (diskExt fun c => c.kind == .keyPair) sampleConfig emptyState).1 = some "IOError" ∧
      (callsMade (diskExt fun c => c.kind == .keyPair) sampleConfig emptyState).length = 8) ∧
    ((initAll (diskExt fun _ => false)
        { sampleConfig with Cluster := { sampleConfig.Cluster with ServiceCIDR := "not-a-cidr" } }
        emptyState).1 = some "InvalidCIDRError" ∧
      (initAll (diskExt fun _ => false)
        { sampleConfig with Cluster := { sampleConfig.Cluster with ServiceCIDR := "not-a-cidr" } }
        emptyState).2.world = []) := by
  constructor
  · have h := (initAll_aborts_on_first_failure (diskExt fun c => c.kind == .keyPair)
      sampleConfig emptyState).2.1 7
      (.genKeys "/var/lib/microshift/resources/kube-apiserver/secrets/service-account-key"
        "service-account.crt" "service-account.key") "IOError" (by decide)
    exact ⟨h.1, h.2.1⟩
  · have h := (initAll_aborts_on_first_failure (diskExt fun _ => false)
      { sampleConfig with Cluster := { sampleConfig.Cluster with ServiceCIDR := "not-a-cidr" } }
      emptyState).2.2.2 "InvalidCIDRError" rfl
    exact ⟨h.1, h.2.2⟩

/-- C4: in every run of `initKubeconfig` the first request is the administrative kubeconfig
at `resources/kubeadmin/kubeconfig` of the data directory, for `system:admin` with groups
`["system:masters"]`; when the four requests before it succeed, the fifth is the kubelet
kubeconfig at `resources/kubelet/kubeconfig`, for `"system:node:" ++ cfg.NodeName` with
groups `["system:nodes"]`; and every request made is a kubeconfig request that carries
`cfg.Cluster.URL` unchanged. -/
theorem kubeconfig_admin_and_kubelet (x : Ext W Net IP Err) (cfg : MicroshiftConfig)
    (s : St W Net Err) :
    (∃ res, (kubeconfigCallsMade x cfg s)[0]? =
      some (.kubeconfig (x.join cfg.DataDir "/resources/kubeadmin/kubeconfig")
        "system:admin" ["system:masters"] cfg.Cluster.URL, res)) ∧
    ((∀ j < 4, ∀ entry, (kubeconfigCallsMade x cfg s)[j]? = some entry → entry.2 = none) →
      ∃ res, (kubeconfigCallsMade x cfg s)[4]? =
        some (.kubeconfig (x.join cfg.DataDir "/resources/kubelet/kubeconfig")
          ("system:node:" ++ cfg.NodeName) ["system:nodes"] cfg.Cluster.URL, res)) ∧
    (∀ entry, (kubeconfigCallsMade x cfg s)[4]? = some entry →
      entry.1 = .kubeconfig (x.join cfg.DataDir "/resources/kubelet/kubeconfig")
          ("system:node:" ++ cfg.NodeName) ["system:nodes"] cfg.Cluster.URL) ∧
    (∀ entry ∈ kubeconfigCallsMade x cfg s, ∃ path user groups,
      entry.1 = .kubeconfig path user groups cfg.Cluster.URL) := by
  have hstop := kubeconfigCallsMade_stops x cfg s
  refine ⟨?_, ?_, ?_, ?_⟩
  · have h0 : 0 < (kubeconfigCalls x cfg).length := by simp [kubeconfigCalls]
    exact hstop.next_is_made h0 (by simp)
  · intro hprev
    have h4 : 4 < (kubeconfigCalls x cfg).length := by simp [kubeconfigCalls]
    exact hstop.next_is_made h4 hprev
  · intro entry hentry
    have := hstop.call_at hentry
    simp [kubeconfigCalls] at this
    exact this.symm
  · intro entry hentry
    have hmem := hstop.mem hentry
    simp only [kubeconfigCalls, List.mem_cons, List.mem_singleton, List.not_mem_nil, or_false]
      at hmem
    rcases hmem with h | h | h | h | h <;> exact ⟨_, _, _, h⟩

/-- A witness for C4: on the sample host the fifth kubeconfig request is the kubelet one. -/
theorem kubeconfig_admin_and_kubelet_witness :
    ∃ res, (kubeconfigCallsMade (diskExt fun _ => false) sampleConfig emptyState)[4]? =
      some (.kubeconfig "/var/lib/microshift/resources/kubelet/kubeconfig"
        "system:node:node1" ["system:nodes"] "https://127.0.0.1:6443", res) :=
  (kubeconfig_admin_and_kubelet (diskExt fun _ => false) sampleConfig emptyState).2.1
    (by decide)

/-- C5, the claim refuted: on the sample host the kubeconfig requested at
`resources/kube-apiserver/kubeconfig` is not for the user `system:kube-apiserver`. -/
theorem apiserver_kubeconfig_user_counterexample :
    ¬ (∀ entry ∈ kubeconfigCallsMade (diskExt fun _ => false) sampleConfig emptyState,
        ∀ user groups url,
          entry.1 = .kubeconfig
            (filepathJoin sampleConfig.DataDir "/resources/kube-apiserver/kubeconfig")
            user groups url →
          user = "system:kube-apiserver" ∧
            groups = ["kube-apiserver", "system:kube-apiserver", "system:masters"]) := by
  intro h
  have h1 := h (.kubeconfig "/var/lib/microshift/resources/kube-apiserver/kubeconfig"
      "kube-apiserver" ["kube-apiserver", "system:kube-apiserver", "system:masters"]
      "https://127.0.0.1:6443", none) (by decide) "kube-apiserver"
      ["kube-apiserver", "system:kube-apiserver", "system:masters"] "https://127.0.0.1:6443"
      (by decide)
  exact absurd h1.1 (by decide)

/-- C5 as amended: in every run of `initKubeconfig` the second request, made whenever the
first one succeeds, is the kubeconfig at `resources/kube-apiserver/kubeconfig` of the data
directory for the user `kube-apiserver` with the groups `kube-apiserver`,
`system:kube-apiserver` and `system:masters`. -/
theorem apiserver_kubeconfig_identity (x : Ext W Net IP Err) (cfg : MicroshiftConfig)
    (s : St W Net Err) :
    ((∀ entry, (kubeconfigCallsMade x cfg s)[0]? = some entry → entry.2 = none) →
      ∃ res, (kubeconfigCallsMade x cfg s)[1]? =
        some (.kubeconfig (x.join cfg.DataDir "/resources/kube-apiserver/kubeconfig")
          "kube-apiserver" ["kube-apiserver", "system:kube-apiserver", "system:masters"]
          cfg.Cluster.URL, res)) ∧
    (∀ entry, (kubeconfigCallsMade x cfg s)[1]? = some entry →
      entry.1 = .kubeconfig (x.join cfg.DataDir "/resources/kube-apiserver/kubeconfig")
          "kube-apiserver" ["kube-apiserver", "system:kube-apiserver", "system:masters"]
          cfg.Cluster.URL) := by
  have hstop := kubeconfigCallsMade_stops x cfg s
  constructor
  · intro hprev
    have h1 : 1 < (kubeconfigCalls x cfg).length := by simp [kubeconfigCalls]
    refine hstop.next_is_made h1 ?_
    intro j hj entry hentry
    have hj0 : j = 0 := by omega
    subst hj0
    exact hprev entry hentry
  · intro entry hentry
    have := hstop.call_at hentry
    simp [kubeconfigCalls] at this
    exact this.symm

/-- A witness for the amended C5: the second kubeconfig request on the sample host. -/
theorem apiserver_kubeconfig_identity_witness :
    ∃ res, (kubeconfigCallsMade (diskExt fun _ => false) sampleConfig emptyState)[1]? =
      some (.kubeconfig "/var/lib/microshift/resources/kube-apiserver/kubeconfig"
        "kube-apiserver" ["kube-apiserver", "system:kube-apiserver", "system:masters"]
        "https://127.0.0.1:6443", res) :=
  (apiserver_kubeconfig_identity (diskExt fun _ => false) sampleConfig emptyState).1
    (by decide)

/-- C6: in every run of `initCerts`, each request for a serving certificate of a component
on the local node (common name `etcd-server`, `kube-apiserver`, `kubelet`,
`openshift-controller-manager` or `service-ca`) has `127.0.0.1`, `localhost`, `cfg.NodeIP`
and `cfg.NodeName` in its SAN list; and a run that returns `nil` has requested all five. -/
theorem local_serving_certs_cover_node_identity (x : Ext W Net IP Err)
    (cfg : MicroshiftConfig) (s : St W Net Err) :
    (∀ entry ∈ certCallsMade x cfg s, ∀ cn dir crt key sans,
      entry.1 = .genCerts cn dir crt key sans → cn ∈ localServingNames →
        "127.0.0.1" ∈ sans ∧ "localhost" ∈ sans ∧ cfg.NodeIP ∈ sans ∧ cfg.NodeName ∈ sans) ∧
    ((initCerts x cfg s).1 = none → ∀ cn ∈ localServingNames,
      ∃ dir crt key sans, (Call.genCerts cn dir crt key sans, none) ∈ certCallsMade x cfg s) := by
  have hstop := certCallsMade_stops x cfg s
  constructor
  · intro entry hentry cn dir crt key sans heq hcn
    have hmem := hstop.mem hentry
    rw [heq] at hmem
    rcases certSequence_cases x cfg with ⟨svcNet, ip, hparse, hip, hseq⟩ | hkind
    · rw [hseq] at hmem
      simp only [certCalls, List.mem_cons, List.mem_singleton, List.not_mem_nil, or_false,
        Call.genCerts.injEq, reduceCtorEq, false_or] at hmem
      rcases hmem with h | h | h | h | h | h | h | h | h <;>
        obtain ⟨rfl, -, -, -, rfl⟩ := h <;> simp [localServingNames] at hcn ⊢
    · rcases hkind _ hmem with h | h <;> cases h
  · intro hnil cn hcn
    have hall := hstop.all_of_nil hnil
    rcases hparse : x.parseCIDR cfg.Cluster.ServiceCIDR with err | svcNet
    · simp [initCerts, hparse] at hnil
    · rcases hip : x.serviceIPRange svcNet with err | ip
      · simp [initCerts, hparse, hip] at hnil
      · rw [hall]
        simp only [localServingNames, List.mem_cons, List.mem_singleton, List.not_mem_nil,
          or_false] at hcn
        rcases hcn with rfl | rfl | rfl | rfl | rfl <;>
          simp [certSequence, hparse, hip, certCalls]

/-- A witness for C6: the kubelet serving certificate requested on the sample host. -/
theorem local_serving_certs_cover_node_identity_witness :
    "127.0.0.1" ∈ ["localhost", "192.168.1.10", "127.0.0.1", "node1"] ∧
    "localhost" ∈ ["localhost", "192.168.1.10", "127.0.0.1", "node1"] ∧
    sampleConfig.NodeIP ∈ ["localhost", "192.168.1.10", "127.0.0.1", "node1"] ∧
    sampleConfig.NodeName ∈ ["localhost", "192.168.1.10", "127.0.0.1", "node1"] :=
  (local_serving_certs_cover_node_identity (diskExt fun _ => false) sampleConfig emptyState).1
    (.genCerts "kubelet" "/var/lib/microshift/resources/kubelet/secrets/kubelet-client"
      "tls.crt" "tls.key" ["localhost", "192.168.1.10", "127.0.0.1", "node1"], none)
    (by decide) "kubelet" "/var/lib/microshift/resources/kubelet/secrets/kubelet-client"
    "tls.crt" "tls.key" ["localhost", "192.168.1.10", "127.0.0.1", "node1"] rfl (by decide)

/-- C7, the claim refuted: on the sample host the SAN list requested for the `service-ca`
certificate does not contain the name `service-ca`. -/
theorem ocp_certs_own_name_counterexample :
    ¬ (∀ entry ∈ certCallsMade (diskExt fun _ => false) sampleConfig emptyState,
        ∀ cn dir crt key sans, entry.1 = .genCerts cn dir crt key sans →
          cn = "openshift-controller-manager" ∨ cn = "service-ca" →
          cn ∈ sans ∧ sampleConfig.NodeIP ∈ sans ∧ sampleConfig.NodeName ∈ sans ∧
            "127.0.0.1" ∈ sans ∧ "localhost" ∈ sans) := by
  intro h
  have h1 := h (.genCerts "service-ca"
      "/var/lib/microshift/resources/service-ca/secrets/service-ca" "tls.crt" "tls.key"
      ["localhost", "192.168.1.10", "127.0.0.1", "node1", "10.43.0.1"], none) (by decide)
      "service-ca" "/var/lib/microshift/resources/service-ca/secrets/service-ca"
      "tls.crt" "tls.key" ["localhost", "192.168.1.10", "127.0.0.1", "node1", "10.43.0.1"]
      rfl (Or.inr rfl)
  exact absurd h1.1 (by decide)

/-- C7 as amended: in every run of `initCerts` the SAN list requested for the
`openshift-controller-manager` certificate contains that name together with `cfg.NodeIP`,
`cfg.NodeName`, `127.0.0.1` and `localhost`, while the SAN list requested for the
`service-ca` certificate is exactly `localhost`, `cfg.NodeIP`, `127.0.0.1`, `cfg.NodeName` and
the string form of the derived service IP, with no entry of its own for the name
`service-ca`; and a run that returns `nil` has made both requests. -/
theorem ocp_certs_sans (x : Ext W Net IP Err) (cfg : MicroshiftConfig) (s : St W Net Err) :
    (∀ entry ∈ certCallsMade x cfg s, ∀ dir crt key sans,
      entry.1 = .genCerts "openshift-controller-manager" dir crt key sans →
        "openshift-controller-manager" ∈ sans ∧ cfg.NodeIP ∈ sans ∧ cfg.NodeName ∈ sans ∧
          "127.0.0.1" ∈ sans ∧ "localhost" ∈ sans) ∧
    (∀ entry ∈ certCallsMade x cfg s, ∀ dir crt key sans,
      entry.1 = .genCerts "service-ca" dir crt key sans →
        ∃ svcNet ip, x.parseCIDR cfg.Cluster.ServiceCIDR = .ok svcNet ∧
          x.serviceIPRange svcNet = .ok ip ∧
          sans = ["localhost", cfg.NodeIP, "127.0.0.1", cfg.NodeName, x.ipString ip]) ∧
    ((initCerts x cfg s).1 = none →
      (∃ dir crt key sans, (Call.genCerts "openshift-controller-manager" dir crt key sans,
          none) ∈ certCallsMade x cfg s) ∧
      (∃ dir crt key sans, (Call.genCerts "service-ca" dir crt key sans, none) ∈
          certCallsMade x cfg s)) := by
  have hstop := certCallsMade_stops x cfg s
  refine ⟨?_, ?_, ?_⟩
  · intro entry hentry dir crt key sans heq
    have hmem := hstop.mem hentry
    rw [heq] at hmem
    rcases certSequence_cases x cfg with ⟨svcNet, ip, hparse, hip, hseq⟩ | hkind
    · rw [hseq] at hmem
      simp [certCalls] at hmem
      obtain ⟨-, -, -, rfl⟩ := hmem
      simp
    · rcases hkind _ hmem with h | h <;> cases h
  · intro entry hentry dir crt key sans heq
    have hmem := hstop.mem hentry
    rw [heq] at hmem
    rcases certSequence_cases x cfg with ⟨svcNet, ip, hparse, hip, hseq⟩ | hkind
    · rw [hseq] at hmem
      simp [certCalls] at hmem
      obtain ⟨-, -, -, rfl⟩ := hmem
      exact ⟨svcNet, ip, hparse, hip, rfl⟩
    · rcases hkind _ hmem with h | h <;> cases h
  · intro hnil
    have hall := hstop.all_of_nil hnil
    rcases hparse : x.parseCIDR cfg.Cluster.ServiceCIDR with err | svcNet
    · simp [initCerts, hparse] at hnil
    · rcases hip : x.serviceIPRange svcNet with err | ip
      · simp [initCerts, hparse, hip] at hnil
      · rw [hall]
        constructor <;> simp [certSequence, hparse, hip, certCalls]

/-- A witness for the amended C7: the `service-ca` request on the sample host. -/
theorem ocp_certs_sans_witness :
    ∃ svcNet ip, (diskExt fun _ => false).parseCIDR sampleConfig.Cluster.ServiceCIDR =
        .ok svcNet ∧ (diskExt fun _ => false).serviceIPRange svcNet = .ok ip ∧
      ["localhost", "192.168.1.10", "127.0.0.1", "node1", "10.43.0.1"] =
        ["localhost", sampleConfig.NodeIP, "127.0.0.1", sampleConfig.NodeName,
          (diskExt fun _ => false).ipString ip] :=
  (ocp_certs_sans (diskExt fun _ => false) sampleConfig emptyState).2.1
    (.genCerts "service-ca"
      "/var/lib/microshift/resources/service-ca/secrets/service-ca" "tls.crt" "tls.key"
      ["localhost", "192.168.1.10", "127.0.0.1", "node1", "10.43.0.1"], none) (by decide)
    "/var/lib/microshift/resources/service-ca/secrets/service-ca" "tls.crt" "tls.key"
    ["localhost", "192.168.1.10", "127.0.0.1", "node1", "10.43.0.1"] rfl

/-- C8, the claim refuted: on the sample host the calls of `initAll` are not in the order
CA, service IP, certificates, key pairs, kubeconfigs: the service CIDR is parsed before the
CA is stored, and a key pair is generated before later certificates are issued. -/
theorem spec_stage_order_counterexample :
    ¬ ((callsMade (diskExt fun _ => false) sampleConfig emptyState).map
        (fun entry => specStage entry.1.kind)).Pairwise (· ≤ ·) := by
  decide

/-- C8 as amended: in every run the calls of `initAll` follow the source order, which is
service-CIDR parsing, service-IP derivation, CA storage, four certificates, a key pair, two
certificates, a key pair, three certificates, then five kubeconfigs; a run that returns
`nil` has made all nineteen; and a kubeconfig request is only ever made after the fourteen
calls before it, the CA, the nine certificates and the two key pairs among them, have all
succeeded. -/
theorem bootstrap_order (x : Ext W Net IP Err) (cfg : MicroshiftConfig) (s : St W Net Err) :
    (callsMade x cfg s).map (fun entry => entry.1.kind) =
      sourceOrder.take (callsMade x cfg s).length ∧
    ((initAll x cfg s).1 = none →
      (callsMade x cfg s).map (fun entry => entry.1.kind) = sourceOrder) ∧
    (∀ i entry, (callsMade x cfg s)[i]? = some entry → entry.1.kind = .kubeconfig →
      14 ≤ i ∧ ∀ j < i, ∃ c, (callsMade x cfg s)[j]? = some (c, none)) := by
  have hstop := callsMade_stops x cfg s
  have hkinds := callsMade_kinds x cfg s
  refine ⟨hkinds, ?_, ?_⟩
  · intro hnil
    have hall := hstop.all_of_nil hnil
    have hlen : (callsMade x cfg s).length = 19 := by
      rw [hall, List.length_map, initAll_nil_length x cfg s hnil]
    rw [hkinds, hlen]
    rfl
  · intro i entry hi hk
    have hlt : i < (callsMade x cfg s).length := (List.getElem?_eq_some_iff.1 hi).1
    have hki : ((callsMade x cfg s).map (fun entry => entry.1.kind))[i]? =
        some Kind.kubeconfig := by simp [hi, hk]
    rw [hkinds, List.getElem?_take_of_lt hlt] at hki
    have h19 : i < 19 := by
      have := (List.getElem?_eq_some_iff.1 hki).1
      simpa [sourceOrder] using this
    refine ⟨kubeconfig_position i h19 hki, ?_⟩
    intro j hj
    have hjlt : j < (callsMade x cfg s).length := by omega
    have hj' : (callsMade x cfg s)[j]? = some (callsMade x cfg s)[j] :=
      List.getElem?_eq_getElem hjlt
    have hnone := hstop.earlier_succeeded hi hj hj'
    refine ⟨(callsMade x cfg s)[j].1, ?_⟩
    rw [hj']
    congr 1
    exact Prod.ext rfl hnone

/-- A witness for the amended C8: on the sample host the first kubeconfig request is the
fifteenth call, after fourteen calls that succeeded. -/
theorem bootstrap_order_witness :
    14 ≤ 14 ∧ ∀ j < 14, ∃ c,
      (callsMade (diskExt fun _ => false) sampleConfig emptyState)[j]? = some (c, none) :=
  (bootstrap_order (diskExt fun _ => false) sampleConfig emptyState).2.2 14
    (.kubeconfig "/var/lib/microshift/resources/kubeadmin/kubeconfig" "system:admin"
      ["system:masters"] "https://127.0.0.1:6443", none) (by decide) rfl

/-- C9, the code against the claim: on a host whose configuration file holds
`roles: [worker]`, with nothing set in the environment or on the command line,
`ReadAndValidate` called on the configuration of `NewMicroshiftConfig` returns `nil`.
`Roles` is still `defaultRoles`, the slice of `validRoles` itself, so `yaml.Unmarshal`
writes `worker` into the array of `validRoles`, which then reads `worker`, `node`, and the
loop finds the only role, `worker`, in it, although it is neither `controlplane` nor
`node`.  Given as `--roles=worker`, where `Roles` is assigned a slice of its own, the same
role is refused with the error that names it. -/
theorem ReadAndValidate_accepts_role_written_into_validRoles :
    ReadAndValidate (fileEnv ["worker"]) noFlags sampleConfigWithFile initialPackage =
      (none, { sampleConfigWithFile with Roles := .shared 1 },
        { validRoles := ["worker", "node"] }) ∧
    (RolesSlice.shared 1).elems { validRoles := ["worker", "node"] } = ["worker"] ∧
    ¬ ("worker" = "controlplane" ∨ "worker" = "node") ∧
    (ReadAndValidate sampleEnv (rolesFlags ["worker"]) sampleConfig initialPackage).1 =
      some "config error: 'worker' is not a valid role, must be in ['controlplane','node']" := by
  decide

/-- C10: with paths joined by `filepath.Join`, the files requested in a run of `initAll`
are pairwise distinct, whatever the data directory: they are an initial part of the
twenty-nine files `allTargets cfg.DataDir` (the CA bundle, nine certificates and two key
pairs with two files each, and five kubeconfigs), all of them in a run that returns `nil`,
and those twenty-nine are pairwise distinct and depend on the data directory alone, so two
complete runs over the same data directory request the same files whatever the node name,
node IP and service CIDR are.  A call that takes a directory and two file names stores
its material in the directory joined with each name; `util.Kubeconfig` stores it at its
path. -/
theorem artifact_paths_distinct (x : Ext W Net IP Err) (cfg : MicroshiftConfig)
    (s : St W Net Err) (hjoin : x.join = filepathJoin) :
    (targetsMade x cfg s).Nodup ∧
    (∃ n, targetsMade x cfg s = (allTargets cfg.DataDir).take n) ∧
    ((initAll x cfg s).1 = none → targetsMade x cfg s = allTargets cfg.DataDir) ∧
    (allTargets cfg.DataDir).Nodup ∧ (allTargets cfg.DataDir).length = 29 ∧
    (∀ (x' : Ext W Net IP Err) (cfg' : MicroshiftConfig) (s' : St W Net Err),
      x'.join = filepathJoin → cfg'.DataDir = cfg.DataDir →
      (initAll x cfg s).1 = none → (initAll x' cfg' s').1 = none →
      targetsMade x' cfg' s' = targetsMade x cfg s) := by
  have hfull : ∀ (y : Ext W Net IP Err) (c : MicroshiftConfig) (t : St W Net Err),
      y.join = filepathJoin → (initAll y c t).1 = none →
      targetsMade y c t = allTargets c.DataDir := by
    intro y c t hy hnil
    have hlen := initAll_nil_length y c t hnil
    have hall := (callsMade_stops y c t).all_of_nil hnil
    rw [targetsMade_eq, hall, List.length_map, List.take_length]
    exact (bootstrapSequence_targets y c hy).2 hlen
  have htake : ∃ n, targetsMade x cfg s = (allTargets cfg.DataDir).take n := by
    obtain ⟨n, hn⟩ := (bootstrapSequence_targets x cfg hjoin).1
    obtain ⟨m, hm⟩ := flatMap_take Call.targets (bootstrapSequence x cfg)
      (callsMade x cfg s).length
    exact ⟨min m n, by rw [targetsMade_eq, hm, hn, List.take_take]⟩
  refine ⟨?_, htake, hfull x cfg s hjoin, allTargets_nodup _, by simp [allTargets], ?_⟩
  · obtain ⟨n, hn⟩ := htake
    rw [hn]
    exact (allTargets_nodup _).sublist (List.take_sublist _ _)
  · intro x' cfg' s' hjoin' hdir h1 h2
    rw [hfull x cfg s hjoin h1, hfull x' cfg' s' hjoin' h2, hdir]

/-- A witness for C10: the run on the sample host, whose paths `filepath.Join` builds. -/
theorem artifact_paths_distinct_witness :
    (targetsMade (diskExt fun _ => false) sampleConfig emptyState).Nodup ∧
      (targetsMade (diskExt fun _ => false) sampleConfig emptyState).length = 29 := by
  have h := artifact_paths_distinct (diskExt fun _ => false) sampleConfig emptyState rfl
  exact ⟨h.1, by rw [h.2.2.1 (by decide)]; exact h.2.2.2.2.1⟩

end Microshift
